import Mathlib

/-!
Shallow embedding of the FDTD simulation code (src/src/no_pml.py, bpml.py,
cpml.py, common.py, callers.py).  Python/numpy floating point arithmetic is
modelled over the reals.  A 2D numpy array is modelled as a total function
`ℕ → ℕ → ℝ` together with the shape parameters `nx`, `ny` that the code
threads around; slice assignments such as `ex[:, 1:-1] = ...` become
pointwise conditional updates whose index window is translated from the
slice using the array's shape.

Aliasing: numpy slice assignment (`ex[:, 1:-1] = ...`, `hz[sourcepoint] = v`)
mutates the array object in place, while a plain assignment (`hz = hz - ...`)
rebinds the local name to a freshly allocated array.  Each engine state
therefore carries, besides the local field bindings, the contents of the
caller's hz buffer (`hzCaller`) and a flag `hzAlias` recording whether the
local name `hz` still denotes the caller's buffer object; every in-place
write through `hz` updates the caller's buffer exactly when the flag holds.
-/

namespace FDTD

/-- A 2D numpy array of floats, modelled as a total function over the reals.
Entries outside the array's shape are junk and never relied upon. -/
def Grid : Type := ℕ → ℕ → ℝ

/-- The all-zero array, `np.zeros(...)`. -/
def zeroGrid : Grid := fun _ _ => 0

/-- The all-ones array, `np.ones(...)`. -/
def onesGrid : Grid := fun _ _ => 1

/-- In-place single-cell assignment `a[p] = v` (numpy tuple indexing). -/
def write2 (g : Grid) (p : ℕ × ℕ) (v : ℝ) : Grid :=
  fun i j => if i = p.1 ∧ j = p.2 then v else g i j

/-- Row assignment `a[r, :] = v`. -/
def rowSet (g : Grid) (r : ℕ) (v : ℝ) : Grid :=
  fun i j => if i = r then v else g i j

/-- Column assignment `a[:, c] = v`. -/
def colSet (g : Grid) (c : ℕ) (v : ℝ) : Grid :=
  fun i j => if j = c then v else g i j

@[simp] theorem write2_same (g : Grid) (p : ℕ × ℕ) (v : ℝ) :
    write2 g p v p.1 p.2 = v := by
  simp [write2]

theorem write2_other (g : Grid) (p : ℕ × ℕ) (v : ℝ) (i j : ℕ)
    (h : ¬(i = p.1 ∧ j = p.2)) : write2 g p v i j = g i j := by
  simp [write2, h]

/-- Value of `scipy.constants.epsilon_0`. -/
noncomputable def eps0 : ℝ := 8.8541878128e-12

/-- Value of `scipy.constants.mu_0`. -/
noncomputable def mu0 : ℝ := 1.25663706212e-6

/-- Value of `scipy.constants.c`. -/
noncomputable def clight : ℝ := 299792458

/-! ## NoPML engine (src/src/no_pml.py) -/

/-- The scalar coefficient bundle `[cex, cey, chzx, chzy]` of
`no_pml.calculate_constants`. -/
structure NPConsts where
  cex : ℝ
  cey : ℝ
  chzx : ℝ
  chzy : ℝ

/-- Model of `no_pml.calculate_constants(dx, dy, dt)`:
`cex = dt/(eps*dy)`, `cey = dt/(eps*dx)`, `chzx = dt/(mu*dx)`,
`chzy = dt/(mu*dy)` for vacuum `eps`, `mu`. -/
noncomputable def npml_calculate_constants (dx dy dt : ℝ) : NPConsts where
  cex := dt / (eps0 * dy)
  cey := dt / (eps0 * dx)
  chzx := dt / (mu0 * dx)
  chzy := dt / (mu0 * dy)

/-- State of the NoPML evolution loop: the local bindings `ex`, `ey`, `hz`,
plus the caller's hz buffer contents and the aliasing flag (see the file
header). -/
structure NPState where
  ex : Grid
  ey : Grid
  hz : Grid
  hzAlias : Bool
  hzCaller : Grid

/-- Initial state of a `callers.call_npml` run: all fields zero
(`common.make_fields`), the local `hz` aliasing the caller's buffer. -/
def npml_init : NPState where
  ex := zeroGrid
  ey := zeroGrid
  hz := zeroGrid
  hzAlias := true
  hzCaller := zeroGrid

/-- One iteration of the loop body of `no_pml.evolution`, with source value
`v = source(t)`:
```
hz = hz - chzx * (ey[1:, :] - ey[:-1, :]) + chzy * (ex[:, 1:] - ex[:, :-1])
hz[sourcepoint] = source(t)
ex[:, 1:-1] = ex[:, 1:-1] + cex * (hz[:, 1:] - hz[:, :-1])
ey[1:-1, :] = ey[1:-1, :] - cey * (hz[1:, :] - hz[:-1, :])
```
`ex` has shape `(nx, ny+1)`, so `ex[:, 1:-1]` is the column window
`1 ≤ j ≤ ny-1`; `ey` has shape `(nx+1, ny)`, so `ey[1:-1, :]` is the row
window `1 ≤ i ≤ nx-1`.  The first line rebinds the local `hz` to a fresh
array, dropping the alias to the caller's buffer before the source write. -/
def npml_step (nx ny : ℕ) (c : NPConsts) (sp : ℕ × ℕ) (v : ℝ)
    (s : NPState) : NPState :=
  let hz1 : Grid := fun i j =>
    s.hz i j - c.chzx * (s.ey (i+1) j - s.ey i j)
      + c.chzy * (s.ex i (j+1) - s.ex i j)
  let alias1 : Bool := false
  let hz2 : Grid := write2 hz1 sp v
  let caller2 : Grid := if alias1 then write2 s.hzCaller sp v else s.hzCaller
  let ex2 : Grid := fun i j =>
    if 1 ≤ j ∧ j ≤ ny - 1 then
      s.ex i j + c.cex * (hz2 i j - hz2 i (j-1))
    else s.ex i j
  let ey2 : Grid := fun i j =>
    if 1 ≤ i ∧ i ≤ nx - 1 then
      s.ey i j - c.cey * (hz2 i j - hz2 (i-1) j)
    else s.ey i j
  { ex := ex2, ey := ey2, hz := hz2, hzAlias := alias1, hzCaller := caller2 }

/-- The state after `t` iterations of the `no_pml.evolution` loop. -/
def npml_iter (nx ny : ℕ) (c : NPConsts) (sp : ℕ × ℕ) (source : ℕ → ℝ)
    (s0 : NPState) : ℕ → NPState
  | 0 => s0
  | t + 1 => npml_step nx ny c sp (source t) (npml_iter nx ny c sp source s0 t)

/-- Model of `no_pml.evolution`: runs `nt` steps, writing `history[:, :, t] = hz` at
the end of step `t`; entries of the history buffer with `t ≥ nt` keep their
input contents. -/
def npml_evolution (nx ny nt : ℕ) (c : NPConsts) (sp : ℕ × ℕ)
    (source : ℕ → ℝ) (s0 : NPState) (hist0 : ℕ → ℕ → ℕ → ℝ) :
    ℕ → ℕ → ℕ → ℝ :=
  fun i j t =>
    if t < nt then (npml_iter nx ny c sp source s0 (t+1)).hz i j
    else hist0 i j t

/-- Model of `callers.call_npml`: zero fields, vacuum constants, zero history buffer. -/
noncomputable def call_npml (nx ny nt : ℕ) (dx dy dt : ℝ) (p : ℕ × ℕ)
    (source : ℕ → ℝ) : ℕ → ℕ → ℕ → ℝ :=
  npml_evolution nx ny nt (npml_calculate_constants dx dy dt) p source
    npml_init (fun _ _ _ => 0)

/-! ## Berenger PML engine (src/src/bpml.py) -/

/-- The per-cell coefficient bundle
`[ex1, ex2, ey1, ey2, hzx1, hzx2, hzy1, hzy2]` of `bpml.calculate_constants`.
`ex1`/`ex2` have shape `(nx, ny-1)` (indexed by the window offset), `ey1`/`ey2`
have shape `(nx-1, ny)`, the `hz` coefficients have shape `(nx, ny)`. -/
structure BPConsts where
  ex1 : Grid
  ex2 : Grid
  ey1 : Grid
  ey2 : Grid
  hzx1 : Grid
  hzx2 : Grid
  hzy1 : Grid
  hzy2 : Grid

/-- Model of `bpml.calculate_constants(eps, mu, sigmas, dx, dy, dt)`:
```
eps_shorty = (eps[:, 1:] + eps[:, :-1]) / 2
eps_shortx = (eps[1:, :] + eps[:-1, :]) / 2
ex1 = (2*eps_shorty - sigmay*dt) / (2*eps_shorty + sigmay*dt)
ex2 = ((2*dt) / (2*eps_shorty + sigmay*dt)) / dy
ey1 = (2*eps_shortx - sigmax*dt) / (2*eps_shortx + sigmax*dt)
ey2 = ((2*dt) / (2*eps_shortx + sigmax*dt)) / dx
hzx1 = (2*mu - sigmamx*dt) / (2*mu + sigmamx*dt)
hzy1 = (2*mu - sigmamy*dt) / (2*mu + sigmamy*dt)
hzx2 = ((2*dt) / (2*mu + sigmamx*dt)) / dx
hzy2 = ((2*dt) / (2*mu + sigmamy*dt)) / dy
```
-/
noncomputable def bpml_calculate_constants (eps mu : Grid)
    (sigmax sigmay sigmamx sigmamy : Grid) (dx dy dt : ℝ) : BPConsts :=
  let epsShortY : Grid := fun i k => (eps i (k+1) + eps i k) / 2
  let epsShortX : Grid := fun k j => (eps (k+1) j + eps k j) / 2
  { ex1 := fun i k =>
      (2 * epsShortY i k - sigmay i k * dt) / (2 * epsShortY i k + sigmay i k * dt)
    ex2 := fun i k =>
      ((2 * dt) / (2 * epsShortY i k + sigmay i k * dt)) / dy
    ey1 := fun k j =>
      (2 * epsShortX k j - sigmax k j * dt) / (2 * epsShortX k j + sigmax k j * dt)
    ey2 := fun k j =>
      ((2 * dt) / (2 * epsShortX k j + sigmax k j * dt)) / dx
    hzx1 := fun i j =>
      (2 * mu i j - sigmamx i j * dt) / (2 * mu i j + sigmamx i j * dt)
    hzx2 := fun i j =>
      ((2 * dt) / (2 * mu i j + sigmamx i j * dt)) / dx
    hzy1 := fun i j =>
      (2 * mu i j - sigmamy i j * dt) / (2 * mu i j + sigmamy i j * dt)
    hzy2 := fun i j =>
      ((2 * dt) / (2 * mu i j + sigmamy i j * dt)) / dy }

/-- State of the `bpml.evolution` loop: local bindings `ex`, `ey`, `hz` and
the split auxiliary fields `hzx`, `hzy`, plus the caller's hz buffer and the
aliasing flag. -/
structure BPState where
  ex : Grid
  ey : Grid
  hz : Grid
  hzx : Grid
  hzy : Grid
  hzAlias : Bool
  hzCaller : Grid

/-- Initial state of a `callers.call_bpml` run: zero fields
(`common.make_fields`) and zero auxiliary fields
(`bpml.make_auxiliary_fields`). -/
def bpml_init : BPState where
  ex := zeroGrid
  ey := zeroGrid
  hz := zeroGrid
  hzx := zeroGrid
  hzy := zeroGrid
  hzAlias := true
  hzCaller := zeroGrid

/-- One iteration of the loop body of `bpml.evolution`:
```
hzx = hzx1 * hzx - hzx2 * (ey[1:, :] - ey[:-1, :])
hzy = hzy1 * hzy + hzy2 * (ex[:, 1:] - ex[:, :-1])
hz = hzx + hzy
hz[sourcepoint] = source(t)
ex[:, 1:-1] = ex1 * ex[:, 1:-1] + ex2 * (hz[:, 1:] - hz[:, :-1])
ey[1:-1, :] = ey1 * ey[1:-1, :] - ey2 * (hz[1:, :] - hz[:-1, :])
```
The assignments to `hzx`, `hzy` and `hz` rebind local names to fresh arrays
(so the split components never receive the source write, and the caller's hz
buffer is not aliased when the source write happens); the `ex`/`ey` slice
assignments are in place. -/
def bpml_step (nx ny : ℕ) (c : BPConsts) (sp : ℕ × ℕ) (v : ℝ)
    (s : BPState) : BPState :=
  let hzx1g : Grid := fun i j =>
    c.hzx1 i j * s.hzx i j - c.hzx2 i j * (s.ey (i+1) j - s.ey i j)
  let hzy1g : Grid := fun i j =>
    c.hzy1 i j * s.hzy i j + c.hzy2 i j * (s.ex i (j+1) - s.ex i j)
  let hzA : Grid := fun i j => hzx1g i j + hzy1g i j
  let alias1 : Bool := false
  let hzB : Grid := write2 hzA sp v
  let caller2 : Grid := if alias1 then write2 s.hzCaller sp v else s.hzCaller
  let ex2 : Grid := fun i j =>
    if 1 ≤ j ∧ j ≤ ny - 1 then
      c.ex1 i (j-1) * s.ex i j + c.ex2 i (j-1) * (hzB i j - hzB i (j-1))
    else s.ex i j
  let ey2 : Grid := fun i j =>
    if 1 ≤ i ∧ i ≤ nx - 1 then
      c.ey1 (i-1) j * s.ey i j - c.ey2 (i-1) j * (hzB i j - hzB (i-1) j)
    else s.ey i j
  { ex := ex2, ey := ey2, hz := hzB, hzx := hzx1g, hzy := hzy1g,
    hzAlias := alias1, hzCaller := caller2 }

/-- The state after `t` iterations of the `bpml.evolution` loop. -/
def bpml_iter (nx ny : ℕ) (c : BPConsts) (sp : ℕ × ℕ) (source : ℕ → ℝ)
    (s0 : BPState) : ℕ → BPState
  | 0 => s0
  | t + 1 => bpml_step nx ny c sp (source t) (bpml_iter nx ny c sp source s0 t)

/-- Model of `bpml.evolution`: runs `nt` steps, recording `history[:, :, t] = hz`. -/
def bpml_evolution (nx ny nt : ℕ) (c : BPConsts) (sp : ℕ × ℕ)
    (source : ℕ → ℝ) (s0 : BPState) (hist0 : ℕ → ℕ → ℕ → ℝ) :
    ℕ → ℕ → ℕ → ℝ :=
  fun i j t =>
    if t < nt then (bpml_iter nx ny c sp source s0 (t+1)).hz i j
    else hist0 i j t

/-! ## Convolutional PML engine (src/src/cpml.py) -/

/-- The coefficient bundle of `cpml.calculate_constants`, in the positional
order of the returned list `[cex, cey, chx, chy, px, py, pm]`.
Shapes: `cex`, `px` are `(nx, ny-1)` (window offset index), `cey`, `py` are
`(nx-1, ny)`, `chx`, `chy`, `pm` are `(nx, ny)`. -/
structure CPConsts where
  cex : Grid
  cey : Grid
  chx : Grid
  chy : Grid
  px : Grid
  py : Grid
  pm : Grid

/-- Model of `cpml.calculate_constants(eps, mu, dx, dy, dt)` with `kx = ky = 1`:
```
cex = dt / (ky * dy * eps);  cex = (cex[:, 1:] + cex[:, :-1]) / 2
cey = dt / (kx * dx * eps);  cey = (cey[1:, :] + cey[:-1, :]) / 2
chx = dt / (ky * dy * mu)
chy = dt / (kx * dx * mu)
pe = dt / eps; pm = dt / mu
px = (pe[:, 1:] + pe[:, :-1]) / 2
py = (pe[1:, :] + pe[:-1, :]) / 2
```
Note that the produced `chx` is the dy-based magnetic coefficient and the
produced `chy` is the dx-based one. -/
noncomputable def cpml_calculate_constants (eps mu : Grid) (dx dy dt : ℝ) :
    CPConsts :=
  let kx : ℝ := 1
  let ky : ℝ := 1
  let cexFull : Grid := fun i j => dt / (ky * dy * eps i j)
  let ceyFull : Grid := fun i j => dt / (kx * dx * eps i j)
  let pe : Grid := fun i j => dt / eps i j
  { cex := fun i k => (cexFull i (k+1) + cexFull i k) / 2
    cey := fun k j => (ceyFull (k+1) j + ceyFull k j) / 2
    chx := fun i j => dt / (ky * dy * mu i j)
    chy := fun i j => dt / (kx * dx * mu i j)
    px := fun i k => (pe i (k+1) + pe i k) / 2
    py := fun k j => (pe (k+1) j + pe k j) / 2
    pm := fun i j => dt / mu i j }

/-- The graded alpha arrays of `cpml.cpml_constants`:
`alpha_x : (nx-1, ny)`, `alpha_y : (nx, ny-1)`, `alpha_mx, alpha_my : (nx, ny)`. -/
structure AlphaSet where
  ax : Grid
  ay : Grid
  amx : Grid
  amy : Grid

/-- One iteration (index `q`) of the alpha ramp loop of `cpml.cpml_constants`:
```
alpha_x[q, :] = (q+1)/10 ; alpha_x[-q-1, :] = (q+1)/10
alpha_mx[q, :] = (q+1)/10 ; alpha_mx[-q-1, :] = (q+1)/10
alpha_y[:, q] = (q+1)/10 ; alpha_y[:, -q-1] = (q+1)/10
alpha_my[:, q] = (q+1)/10 ; alpha_my[:, -q-1] = (q+1)/10
```
Negative indices are translated using the shapes: in `alpha_x` (`nx-1` rows)
row `-q-1` is row `nx-2-q`; in `alpha_mx` (`nx` rows) it is row `nx-1-q`
(the loop needs `nx-1 ≥ 10` and `ny-1 ≥ 10` in Python to avoid an
IndexError on the smaller arrays). -/
noncomputable def alphaStep (nx ny q : ℕ) (a : AlphaSet) : AlphaSet :=
  let v : ℝ := (q + 1 : ℕ) / 10
  { ax := rowSet (rowSet a.ax q v) (nx - 2 - q) v
    ay := colSet (colSet a.ay q v) (ny - 2 - q) v
    amx := rowSet (rowSet a.amx q v) (nx - 1 - q) v
    amy := colSet (colSet a.amy q v) (ny - 1 - q) v }

/-- The alpha arrays after the first `k` iterations of the ramp loop,
starting from `np.ones(...)`. -/
noncomputable def alphaIter (nx ny : ℕ) : ℕ → AlphaSet
  | 0 => { ax := onesGrid, ay := onesGrid, amx := onesGrid, amy := onesGrid }
  | q + 1 => alphaStep nx ny q (alphaIter nx ny q)

/-- The alpha arrays of `cpml.cpml_constants` (the loop runs `range(10)`). -/
noncomputable def cpml_alphas (nx ny : ℕ) : AlphaSet := alphaIter nx ny 10

/-- The auxiliary coefficient bundle `[aex, aey, ahx, ahy, bex, bey, bhx, bhy]`
of `cpml.cpml_constants`. -/
structure CPAux where
  aex : Grid
  aey : Grid
  ahx : Grid
  ahy : Grid
  bex : Grid
  bey : Grid
  bhx : Grid
  bhy : Grid

/-- Model of `cpml.cpml_constants(nx, ny, sigmas, dx, dy, dt)` with `k = 1`:
```
bex = exp(-(sigmas[0] / (k + alpha_x)) * (dt / epsilon_0)); aex = (bex-1)/dx
bey = exp(-(sigmas[1] / (k + alpha_y)) * (dt / epsilon_0)); aey = (bey-1)/dy
bhx = exp(-(sigmas[2] / (k + alpha_mx)) * (dt / epsilon_0)); ahx = (bhx-1)/dx
bhy = exp(-(sigmas[3] / (k + alpha_my)) * (dt / epsilon_0)); ahy = (bhy-1)/dy
```
-/
noncomputable def cpml_constants (nx ny : ℕ)
    (sigmax sigmay sigmamx sigmamy : Grid) (dx dy dt : ℝ) : CPAux :=
  let k : ℝ := 1
  let A := cpml_alphas nx ny
  let bex : Grid := fun i j =>
    Real.exp (-(sigmax i j / (k + A.ax i j)) * (dt / eps0))
  let bey : Grid := fun i j =>
    Real.exp (-(sigmay i j / (k + A.ay i j)) * (dt / eps0))
  let bhx : Grid := fun i j =>
    Real.exp (-(sigmamx i j / (k + A.amx i j)) * (dt / eps0))
  let bhy : Grid := fun i j =>
    Real.exp (-(sigmamy i j / (k + A.amy i j)) * (dt / eps0))
  { aex := fun i j => (bex i j - 1) / dx
    aey := fun i j => (bey i j - 1) / dy
    ahx := fun i j => (bhx i j - 1) / dx
    ahy := fun i j => (bhy i j - 1) / dy
    bex := bex, bey := bey, bhx := bhx, bhy := bhy }

/-- State of the `cpml.evolution` loop: local field bindings, the four psi
memory fields, the caller's hz buffer and the aliasing flag. -/
structure CPState where
  ex : Grid
  ey : Grid
  hz : Grid
  pex : Grid
  pey : Grid
  phx : Grid
  phy : Grid
  hzAlias : Bool
  hzCaller : Grid

/-- Initial state of a `callers.call_cpml` run: zero fields and zero psi
fields (`cpml.make_auxiliary_fields`). -/
def cpml_init : CPState where
  ex := zeroGrid
  ey := zeroGrid
  hz := zeroGrid
  pex := zeroGrid
  pey := zeroGrid
  phx := zeroGrid
  phy := zeroGrid
  hzAlias := true
  hzCaller := zeroGrid

/-- One iteration of the loop body of `cpml.evolution`.  The constants list
is unpacked there as
```
cex, cey, chy, chx, px, py, pm = constants
```
i.e. the local `chy` is the THIRD produced component (`CPConsts.chx`) and the
local `chx` is the FOURTH (`CPConsts.chy`) — positions 2 and 3 are swapped
relative to `calculate_constants`' return order.  The body is
```
phy = bhy * phy + ahy * (ex[:, 1:] - ex[:, :-1])
phx = bhx * phx + ahx * (ey[1:, :] - ey[:-1, :])
hz = hz - chy * (ey[1:, :] - ey[:-1, :]) + chx * (ex[:, 1:] - ex[:, :-1])
       + pm * (phy - phx)
hz[sourcepoint] = source(t)
pey = bey * pey + aey * (hz[:, 1:] - hz[:, :-1])
pex = bex * pex + aex * (hz[1:, :] - hz[:-1, :])
ex[:, 1:-1] = ex[:, 1:-1] + cex * (hz[:, 1:] - hz[:, :-1]) + px * pey
ey[1:-1, :] = ey[1:-1, :] - cey * (hz[1:, :] - hz[:-1, :]) - py * pex
```
`phy`, `phx`, `hz`, `pey`, `pex` are rebindings to fresh arrays; the `ex`/`ey`
slice assignments are in place. -/
def cpml_step (nx ny : ℕ) (c : CPConsts) (a : CPAux) (sp : ℕ × ℕ) (v : ℝ)
    (s : CPState) : CPState :=
  let chyL : Grid := c.chx
  let chxL : Grid := c.chy
  let phy1 : Grid := fun i j =>
    a.bhy i j * s.phy i j + a.ahy i j * (s.ex i (j+1) - s.ex i j)
  let phx1 : Grid := fun i j =>
    a.bhx i j * s.phx i j + a.ahx i j * (s.ey (i+1) j - s.ey i j)
  let hz1 : Grid := fun i j =>
    s.hz i j - chyL i j * (s.ey (i+1) j - s.ey i j)
      + chxL i j * (s.ex i (j+1) - s.ex i j)
      + c.pm i j * (phy1 i j - phx1 i j)
  let alias1 : Bool := false
  let hz2 : Grid := write2 hz1 sp v
  let caller2 : Grid := if alias1 then write2 s.hzCaller sp v else s.hzCaller
  let pey1 : Grid := fun i k =>
    a.bey i k * s.pey i k + a.aey i k * (hz2 i (k+1) - hz2 i k)
  let pex1 : Grid := fun k j =>
    a.bex k j * s.pex k j + a.aex k j * (hz2 (k+1) j - hz2 k j)
  let ex2 : Grid := fun i j =>
    if 1 ≤ j ∧ j ≤ ny - 1 then
      s.ex i j + c.cex i (j-1) * (hz2 i j - hz2 i (j-1)) + c.px i (j-1) * pey1 i (j-1)
    else s.ex i j
  let ey2 : Grid := fun i j =>
    if 1 ≤ i ∧ i ≤ nx - 1 then
      s.ey i j - c.cey (i-1) j * (hz2 i j - hz2 (i-1) j) - c.py (i-1) j * pex1 (i-1) j
    else s.ey i j
  { ex := ex2, ey := ey2, hz := hz2, pex := pex1, pey := pey1,
    phx := phx1, phy := phy1, hzAlias := alias1, hzCaller := caller2 }

/-- The state after `t` iterations of the `cpml.evolution` loop. -/
def cpml_iter (nx ny : ℕ) (c : CPConsts) (a : CPAux) (sp : ℕ × ℕ)
    (source : ℕ → ℝ) (s0 : CPState) : ℕ → CPState
  | 0 => s0
  | t + 1 =>
    cpml_step nx ny c a sp (source t) (cpml_iter nx ny c a sp source s0 t)

/-- Model of `cpml.evolution`: runs `nt` steps, recording `history[:, :, t] = hz`. -/
def cpml_evolution (nx ny nt : ℕ) (c : CPConsts) (a : CPAux) (sp : ℕ × ℕ)
    (source : ℕ → ℝ) (s0 : CPState) (hist0 : ℕ → ℕ → ℕ → ℝ) :
    ℕ → ℕ → ℕ → ℝ :=
  fun i j t =>
    if t < nt then (cpml_iter nx ny c a sp source s0 (t+1)).hz i j
    else hist0 i j t

/-! ## Field allocation (common.make_fields) -/

/-- A numpy array together with its (possibly signed) shape, as produced by
`np.zeros((d1, d2))`. -/
structure NPArr where
  shape : ℤ × ℤ
  val : Grid

/-- Model of `np.zeros((d1, d2))`: raises `ValueError: negative dimensions are not
allowed` when a dimension is negative; a zero dimension yields an empty
array. -/
def np_zeros2 (d1 d2 : ℤ) : Option NPArr :=
  if d1 < 0 ∨ d2 < 0 then none else some ⟨(d1, d2), zeroGrid⟩

/-- Model of `common.make_fields(nx, ny)`:
```
ex = np.zeros((nx, ny + 1))
ey = np.zeros((nx + 1, ny))
hz = np.zeros((nx, ny))
return [ex, ey, hz]
```
The only failure mode is the `ValueError` from `np.zeros` on a negative
dimension. -/
def make_fields (nx ny : ℤ) : Option (NPArr × NPArr × NPArr) := do
  let ex ← np_zeros2 nx (ny + 1)
  let ey ← np_zeros2 (nx + 1) ny
  let hz ← np_zeros2 nx ny
  some (ex, ey, hz)

/-! ## Source point indexing (callers.call_npml with a raw source point) -/

/-- Resolution of a (possibly negative) Python int index into an array axis of
length `n`, as numpy does it: `0 ≤ i < n` is used as is, `-n ≤ i < 0` wraps to
`n + i`, anything else raises an `IndexError`. -/
def numpy_resolve (n : ℕ) (i : ℤ) : Option ℕ :=
  if 0 ≤ i ∧ i < (n : ℤ) then some i.toNat
  else if -(n : ℤ) ≤ i ∧ i < 0 then some (i + n).toNat
  else none

/-- Model of `callers.call_npml` with the source point taken as raw Python ints.
`call_npml` itself performs no validation of the source point; the first (and
only) indexing of it is the `hz[sourcepoint] = source(t)` write inside the
loop of `no_pml.evolution`, which raises an `IndexError` (modelled as `none`)
for an unresolvable index — but only if the loop body runs at all, i.e. only
when `nt ≥ 1`.  With `nt = 0` the zero history buffer is returned untouched
whatever the source point is. -/
noncomputable def call_npml_ix (nx ny nt : ℕ) (dx dy dt : ℝ) (p : ℤ × ℤ)
    (source : ℕ → ℝ) : Option (ℕ → ℕ → ℕ → ℝ) :=
  if nt = 0 then some (fun _ _ _ => 0)
  else
    match numpy_resolve nx p.1, numpy_resolve ny p.2 with
    | some i, some j => some (call_npml nx ny nt dx dy dt (i, j) source)
    | _, _ => none

/-- Model of `no_pml.evolution` with the source point taken as raw Python
ints.  The loop body's `hz[sourcepoint] = source(t)` is the only indexing of
the source point in any engine: an unresolvable coordinate raises an
`IndexError` (modelled as `none`) at the first iteration — during stepping,
never at setup — so with `nt = 0` the history buffer is returned untouched
whatever the source point is, and a negative in-range coordinate is wrapped
by `numpy_resolve`, not rejected. -/
def npml_evolution_ix (nx ny nt : ℕ) (c : NPConsts) (p : ℤ × ℤ)
    (source : ℕ → ℝ) (s0 : NPState) (hist0 : ℕ → ℕ → ℕ → ℝ) :
    Option (ℕ → ℕ → ℕ → ℝ) :=
  if nt = 0 then some hist0
  else
    match numpy_resolve nx p.1, numpy_resolve ny p.2 with
    | some i, some j => some (npml_evolution nx ny nt c (i, j) source s0 hist0)
    | _, _ => none

/-- Model of `bpml.evolution` with the source point taken as raw Python
ints; the `hz[sourcepoint]` write behaves exactly as in `npml_evolution_ix`. -/
def bpml_evolution_ix (nx ny nt : ℕ) (c : BPConsts) (p : ℤ × ℤ)
    (source : ℕ → ℝ) (s0 : BPState) (hist0 : ℕ → ℕ → ℕ → ℝ) :
    Option (ℕ → ℕ → ℕ → ℝ) :=
  if nt = 0 then some hist0
  else
    match numpy_resolve nx p.1, numpy_resolve ny p.2 with
    | some i, some j => some (bpml_evolution nx ny nt c (i, j) source s0 hist0)
    | _, _ => none

/-- Model of `cpml.evolution` with the source point taken as raw Python
ints; the `hz[sourcepoint]` write behaves exactly as in `npml_evolution_ix`. -/
def cpml_evolution_ix (nx ny nt : ℕ) (c : CPConsts) (a : CPAux) (p : ℤ × ℤ)
    (source : ℕ → ℝ) (s0 : CPState) (hist0 : ℕ → ℕ → ℕ → ℝ) :
    Option (ℕ → ℕ → ℕ → ℝ) :=
  if nt = 0 then some hist0
  else
    match numpy_resolve nx p.1, numpy_resolve ny p.2 with
    | some i, some j =>
        some (cpml_evolution nx ny nt c a (i, j) source s0 hist0)
    | _, _ => none

/-! ## PML conductivity grading (common.pml) -/

/-- The four conductivity arrays `[sigmax, sigmay, sigmamx, sigmamy]`, of
shapes `(nx-1, ny)`, `(nx, ny-1)`, `(nx, ny)`, `(nx, ny)`
(`common.make_sigmas`). -/
structure SigmaSet where
  sx : Grid
  sy : Grid
  smx : Grid
  smy : Grid

/-- The all-zero conductivity set of `common.make_sigmas`. -/
def make_sigmas : SigmaSet :=
  { sx := zeroGrid, sy := zeroGrid, smx := zeroGrid, smy := zeroGrid }

/-- One iteration (index `q`) of the layer loop of `common.pml`, with
`wp = w + 1`:
```
sigmas[0][q, :] = wp - 0.5 - q ; sigmas[0][-q-1, :] = wp - 0.5 - q
sigmas[1][:, q] = wp - 0.5 - q ; sigmas[1][:, -q-1] = wp - 0.5 - q
sigmas[2][q, :] = wp - q       ; sigmas[2][-q-1, :] = wp - q
sigmas[3][:, q] = wp - q       ; sigmas[3][:, -q-1] = wp - q
```
Negative indices are translated via the shapes: `sigmas[0]` has `nx-1` rows so
row `-q-1` is `nx-2-q`; `sigmas[1]` has `ny-1` columns so column `-q-1` is
`ny-2-q`; `sigmas[2]`/`sigmas[3]` have `nx` rows / `ny` columns, giving
`nx-1-q` / `ny-1-q`. -/
noncomputable def pmlLayerStep (nx ny w q : ℕ) (s : SigmaSet) : SigmaSet :=
  let ve : ℝ := ((w : ℝ) + 1) - 0.5 - (q : ℝ)
  let vm : ℝ := ((w : ℝ) + 1) - (q : ℝ)
  { sx := rowSet (rowSet s.sx q ve) (nx - 2 - q) ve
    sy := colSet (colSet s.sy q ve) (ny - 2 - q) ve
    smx := rowSet (rowSet s.smx q vm) (nx - 1 - q) vm
    smy := colSet (colSet s.smy q vm) (ny - 1 - q) vm }

/-- The conductivity set after the first `k` iterations of the layer loop of
`common.pml`. -/
noncomputable def pmlLayers (nx ny w : ℕ) : ℕ → SigmaSet → SigmaSet
  | 0, s => s
  | q + 1, s => pmlLayerStep nx ny w q (pmlLayers nx ny w q s)

/-- The `sigmamax` of `common.pml`:
`-log(r0) * (m + 1) * epsilon_0 * c / (2 * w * delta)` with
`delta = sqrt((dx**2 + dy**2) / 2)`. -/
noncomputable def sigma_max (w : ℕ) (r0 : ℝ) (m : ℕ) (dx dy : ℝ) : ℝ :=
  -Real.log r0 * ((m : ℝ) + 1) * eps0 * clight /
    (2 * (w : ℝ) * Real.sqrt ((dx ^ 2 + dy ^ 2) / 2))

/-- Model of `common.pml(sigmas, (w, r0, m), dx, dy)`: writes the layer distances into
the given conductivity arrays with the loop above, then rescales each whole
array by `sigmas[i] = sigmamax * (sigmas[i] / w) ** m`. -/
noncomputable def pml (nx ny : ℕ) (s : SigmaSet) (w : ℕ) (r0 : ℝ) (m : ℕ)
    (dx dy : ℝ) : SigmaSet :=
  let sm := sigma_max w r0 m dx dy
  let d := pmlLayers nx ny w w s
  { sx := fun i j => sm * (d.sx i j / (w : ℝ)) ^ m
    sy := fun i j => sm * (d.sy i j / (w : ℝ)) ^ m
    smx := fun i j => sm * (d.smx i j / (w : ℝ)) ^ m
    smy := fun i j => sm * (d.smy i j / (w : ℝ)) ^ m }

/-! ## Step-level facts shared between the claims -/

theorem npml_step_hz_src (nx ny : ℕ) (c : NPConsts) (sp : ℕ × ℕ) (v : ℝ)
    (s : NPState) : (npml_step nx ny c sp v s).hz sp.1 sp.2 = v := by
  simp only [npml_step, write2_same]

theorem bpml_step_hz_src (nx ny : ℕ) (c : BPConsts) (sp : ℕ × ℕ) (v : ℝ)
    (s : BPState) : (bpml_step nx ny c sp v s).hz sp.1 sp.2 = v := by
  simp only [bpml_step, write2_same]

theorem cpml_step_hz_src (nx ny : ℕ) (c : CPConsts) (a : CPAux) (sp : ℕ × ℕ)
    (v : ℝ) (s : CPState) : (cpml_step nx ny c a sp v s).hz sp.1 sp.2 = v := by
  simp only [cpml_step, write2_same]

theorem npml_step_ex_left (nx ny : ℕ) (c : NPConsts) (sp : ℕ × ℕ) (v : ℝ)
    (s : NPState) (i : ℕ) : (npml_step nx ny c sp v s).ex i 0 = s.ex i 0 := by
  simp only [npml_step]
  exact if_neg (by omega)

theorem npml_step_ex_right (nx ny : ℕ) (c : NPConsts) (sp : ℕ × ℕ) (v : ℝ)
    (s : NPState) (i : ℕ) : (npml_step nx ny c sp v s).ex i ny = s.ex i ny := by
  simp only [npml_step]
  exact if_neg (by omega)

theorem npml_step_ey_left (nx ny : ℕ) (c : NPConsts) (sp : ℕ × ℕ) (v : ℝ)
    (s : NPState) (j : ℕ) : (npml_step nx ny c sp v s).ey 0 j = s.ey 0 j := by
  simp only [npml_step]
  exact if_neg (by omega)

theorem npml_step_ey_right (nx ny : ℕ) (c : NPConsts) (sp : ℕ × ℕ) (v : ℝ)
    (s : NPState) (j : ℕ) : (npml_step nx ny c sp v s).ey nx j = s.ey nx j := by
  simp only [npml_step]
  exact if_neg (by omega)

theorem bpml_step_ex_left (nx ny : ℕ) (c : BPConsts) (sp : ℕ × ℕ) (v : ℝ)
    (s : BPState) (i : ℕ) : (bpml_step nx ny c sp v s).ex i 0 = s.ex i 0 := by
  simp only [bpml_step]
  exact if_neg (by omega)

theorem bpml_step_ex_right (nx ny : ℕ) (c : BPConsts) (sp : ℕ × ℕ) (v : ℝ)
    (s : BPState) (i : ℕ) : (bpml_step nx ny c sp v s).ex i ny = s.ex i ny := by
  simp only [bpml_step]
  exact if_neg (by omega)

theorem bpml_step_ey_left (nx ny : ℕ) (c : BPConsts) (sp : ℕ × ℕ) (v : ℝ)
    (s : BPState) (j : ℕ) : (bpml_step nx ny c sp v s).ey 0 j = s.ey 0 j := by
  simp only [bpml_step]
  exact if_neg (by omega)

theorem bpml_step_ey_right (nx ny : ℕ) (c : BPConsts) (sp : ℕ × ℕ) (v : ℝ)
    (s : BPState) (j : ℕ) : (bpml_step nx ny c sp v s).ey nx j = s.ey nx j := by
  simp only [bpml_step]
  exact if_neg (by omega)

theorem cpml_step_ex_left (nx ny : ℕ) (c : CPConsts) (a : CPAux) (sp : ℕ × ℕ)
    (v : ℝ) (s : CPState) (i : ℕ) :
    (cpml_step nx ny c a sp v s).ex i 0 = s.ex i 0 := by
  simp only [cpml_step]
  exact if_neg (by omega)

theorem cpml_step_ex_right (nx ny : ℕ) (c : CPConsts) (a : CPAux) (sp : ℕ × ℕ)
    (v : ℝ) (s : CPState) (i : ℕ) :
    (cpml_step nx ny c a sp v s).ex i ny = s.ex i ny := by
  simp only [cpml_step]
  exact if_neg (by omega)

theorem cpml_step_ey_left (nx ny : ℕ) (c : CPConsts) (a : CPAux) (sp : ℕ × ℕ)
    (v : ℝ) (s : CPState) (j : ℕ) :
    (cpml_step nx ny c a sp v s).ey 0 j = s.ey 0 j := by
  simp only [cpml_step]
  exact if_neg (by omega)

theorem cpml_step_ey_right (nx ny : ℕ) (c : CPConsts) (a : CPAux) (sp : ℕ × ℕ)
    (v : ℝ) (s : CPState) (j : ℕ) :
    (cpml_step nx ny c a sp v s).ey nx j = s.ey nx j := by
  simp only [cpml_step]
  exact if_neg (by omega)

theorem npml_step_caller (nx ny : ℕ) (c : NPConsts) (sp : ℕ × ℕ) (v : ℝ)
    (s : NPState) : (npml_step nx ny c sp v s).hzCaller = s.hzCaller := rfl

theorem bpml_step_caller (nx ny : ℕ) (c : BPConsts) (sp : ℕ × ℕ) (v : ℝ)
    (s : BPState) : (bpml_step nx ny c sp v s).hzCaller = s.hzCaller := rfl

theorem cpml_step_caller (nx ny : ℕ) (c : CPConsts) (a : CPAux) (sp : ℕ × ℕ)
    (v : ℝ) (s : CPState) : (cpml_step nx ny c a sp v s).hzCaller = s.hzCaller :=
  rfl

/-! ## Claim C1 -/

/-- Claim C1: hard-source property.  For every engine variant (NoPML,
Berenger PML, Convolutional PML), every run with a valid in-range source
point, and every timestep `t < nt`, the returned history satisfies
`history[sp.1, sp.2, t] = source t`: the E-field updates performed after the
source injection within the same step never alter the recorded Hz value at
the source cell. -/
theorem claim_C1_hard_source
    (nx ny nt : ℕ) (sp : ℕ × ℕ) (source : ℕ → ℝ) (t : ℕ)
    (_hx : sp.1 < nx) (_hy : sp.2 < ny) (ht : t < nt) :
    (∀ (c : NPConsts) (s0 : NPState) (h0 : ℕ → ℕ → ℕ → ℝ),
        npml_evolution nx ny nt c sp source s0 h0 sp.1 sp.2 t = source t) ∧
    (∀ (c : BPConsts) (s0 : BPState) (h0 : ℕ → ℕ → ℕ → ℝ),
        bpml_evolution nx ny nt c sp source s0 h0 sp.1 sp.2 t = source t) ∧
    (∀ (c : CPConsts) (a : CPAux) (s0 : CPState) (h0 : ℕ → ℕ → ℕ → ℝ),
        cpml_evolution nx ny nt c a sp source s0 h0 sp.1 sp.2 t = source t) := by
  refine ⟨fun c s0 h0 => ?_, fun c s0 h0 => ?_, fun c a s0 h0 => ?_⟩
  · show (if t < nt then (npml_iter nx ny c sp source s0 (t+1)).hz sp.1 sp.2
        else h0 sp.1 sp.2 t) = source t
    rw [if_pos ht]
    exact npml_step_hz_src nx ny c sp (source t) _
  · show (if t < nt then (bpml_iter nx ny c sp source s0 (t+1)).hz sp.1 sp.2
        else h0 sp.1 sp.2 t) = source t
    rw [if_pos ht]
    exact bpml_step_hz_src nx ny c sp (source t) _
  · show (if t < nt then (cpml_iter nx ny c a sp source s0 (t+1)).hz sp.1 sp.2
        else h0 sp.1 sp.2 t) = source t
    rw [if_pos ht]
    exact cpml_step_hz_src nx ny c a sp (source t) _

/-- Witness for C1: a concrete NoPML run with source point (1, 2) on a 3×4
grid records the source value 5 at timestep 0. -/
theorem claim_C1_hard_source_witness :
    npml_evolution 3 4 2 ⟨1, 1, 1, 1⟩ (1, 2) (fun t => (t : ℝ) + 5) npml_init
      (fun _ _ _ => 0) 1 2 0 = 5 := by
  have h := (claim_C1_hard_source 3 4 2 (1, 2) (fun t => (t : ℝ) + 5) 0
      (by decide) (by decide) (by decide)).1 ⟨1, 1, 1, 1⟩ npml_init
      (fun _ _ _ => 0)
  simpa using h

/-! ## Claim C10 -/

/-- Claim C10: in all three engines the tangential E-components on the outer
grid boundary — `Ex[:, 0]`, `Ex[:, ny]`, `Ey[0, :]`, `Ey[nx, :]` — are never
written: after any number of steps of any run they retain the values they had
in the initial state (the updates write only the interior slices
`ex[:, 1:-1]` and `ey[1:-1, :]`). -/
theorem claim_C10_boundary_never_written
    (nx ny : ℕ) (sp : ℕ × ℕ) (source : ℕ → ℝ) (t : ℕ) :
    (∀ (c : NPConsts) (s0 : NPState) (i j : ℕ),
        (npml_iter nx ny c sp source s0 t).ex i 0 = s0.ex i 0 ∧
        (npml_iter nx ny c sp source s0 t).ex i ny = s0.ex i ny ∧
        (npml_iter nx ny c sp source s0 t).ey 0 j = s0.ey 0 j ∧
        (npml_iter nx ny c sp source s0 t).ey nx j = s0.ey nx j) ∧
    (∀ (c : BPConsts) (s0 : BPState) (i j : ℕ),
        (bpml_iter nx ny c sp source s0 t).ex i 0 = s0.ex i 0 ∧
        (bpml_iter nx ny c sp source s0 t).ex i ny = s0.ex i ny ∧
        (bpml_iter nx ny c sp source s0 t).ey 0 j = s0.ey 0 j ∧
        (bpml_iter nx ny c sp source s0 t).ey nx j = s0.ey nx j) ∧
    (∀ (c : CPConsts) (a : CPAux) (s0 : CPState) (i j : ℕ),
        (cpml_iter nx ny c a sp source s0 t).ex i 0 = s0.ex i 0 ∧
        (cpml_iter nx ny c a sp source s0 t).ex i ny = s0.ex i ny ∧
        (cpml_iter nx ny c a sp source s0 t).ey 0 j = s0.ey 0 j ∧
        (cpml_iter nx ny c a sp source s0 t).ey nx j = s0.ey nx j) := by
  induction t with
  | zero => exact ⟨fun c s0 i j => ⟨rfl, rfl, rfl, rfl⟩,
      fun c s0 i j => ⟨rfl, rfl, rfl, rfl⟩,
      fun c a s0 i j => ⟨rfl, rfl, rfl, rfl⟩⟩
  | succ t ih =>
    obtain ⟨ihn, ihb, ihc⟩ := ih
    refine ⟨fun c s0 i j => ?_, fun c s0 i j => ?_, fun c a s0 i j => ?_⟩
    · obtain ⟨h1, h2, h3, h4⟩ := ihn c s0 i j
      exact ⟨(npml_step_ex_left nx ny c sp (source t) _ i).trans h1,
        (npml_step_ex_right nx ny c sp (source t) _ i).trans h2,
        (npml_step_ey_left nx ny c sp (source t) _ j).trans h3,
        (npml_step_ey_right nx ny c sp (source t) _ j).trans h4⟩
    · obtain ⟨h1, h2, h3, h4⟩ := ihb c s0 i j
      exact ⟨(bpml_step_ex_left nx ny c sp (source t) _ i).trans h1,
        (bpml_step_ex_right nx ny c sp (source t) _ i).trans h2,
        (bpml_step_ey_left nx ny c sp (source t) _ j).trans h3,
        (bpml_step_ey_right nx ny c sp (source t) _ j).trans h4⟩
    · obtain ⟨h1, h2, h3, h4⟩ := ihc c a s0 i j
      exact ⟨(cpml_step_ex_left nx ny c a sp (source t) _ i).trans h1,
        (cpml_step_ex_right nx ny c a sp (source t) _ i).trans h2,
        (cpml_step_ey_left nx ny c a sp (source t) _ j).trans h3,
        (cpml_step_ey_right nx ny c a sp (source t) _ j).trans h4⟩

/-! ## Claim C8 -/

/-- Counterexample to C8 as stated: in a concrete NoPML run (2×2 grid, one
step, unit source at (0,0)), the caller's Hz buffer still holds its initial
value 0 at the source cell after the run, while the final-step magnetic field
recorded in the history is 1 there — so the caller's Hz array does NOT hold
the final-step field. -/
theorem claim_C8_counterexample :
    (npml_iter 2 2 ⟨1, 1, 1, 1⟩ (0, 0) (fun _ => 1) npml_init 1).hzCaller 0 0 = 0 ∧
    npml_evolution 2 2 1 ⟨1, 1, 1, 1⟩ (0, 0) (fun _ => 1) npml_init
      (fun _ _ _ => 0) 0 0 0 = 1 ∧
    (0 : ℝ) ≠ 1 := by
  refine ⟨?_, ?_, by norm_num⟩
  · show (npml_step 2 2 ⟨1, 1, 1, 1⟩ (0, 0) ((fun _ => (1 : ℝ)) 0) npml_init).hzCaller 0 0 = 0
    rw [npml_step_caller]
    rfl
  · show (if 0 < 1 then
        (npml_iter 2 2 ⟨1, 1, 1, 1⟩ (0, 0) (fun _ => 1) npml_init 1).hz 0 0
      else (0 : ℝ)) = 1
    rw [if_pos Nat.one_pos]
    exact npml_step_hz_src 2 2 ⟨1, 1, 1, 1⟩ (0, 0) _ _

/-- Claim C8, amended: in every engine variant the `ex`/`ey` buffers are
updated through in-place slice assignments, but the local `hz` is rebound to
a freshly allocated array at the start of each step, before the source write;
consequently the caller's Hz buffer (`fields[2]`) is never written and after
any number of steps still holds its initial contents, not the final-step
field. -/
theorem claim_C8_amended_caller_hz_never_written
    (nx ny : ℕ) (sp : ℕ × ℕ) (source : ℕ → ℝ) (t : ℕ) :
    (∀ (c : NPConsts) (s0 : NPState),
        (npml_iter nx ny c sp source s0 t).hzCaller = s0.hzCaller) ∧
    (∀ (c : BPConsts) (s0 : BPState),
        (bpml_iter nx ny c sp source s0 t).hzCaller = s0.hzCaller) ∧
    (∀ (c : CPConsts) (a : CPAux) (s0 : CPState),
        (cpml_iter nx ny c a sp source s0 t).hzCaller = s0.hzCaller) := by
  induction t with
  | zero => exact ⟨fun c s0 => rfl, fun c s0 => rfl, fun c a s0 => rfl⟩
  | succ t ih =>
    obtain ⟨ihn, ihb, ihc⟩ := ih
    refine ⟨fun c s0 => ?_, fun c s0 => ?_, fun c a s0 => ?_⟩
    · exact (npml_step_caller nx ny c sp (source t) _).trans (ihn c s0)
    · exact (bpml_step_caller nx ny c sp (source t) _).trans (ihb c s0)
    · exact (cpml_step_caller nx ny c a sp (source t) _).trans (ihc c a s0)

/-! ## Claim C3 -/

theorem npml_step_zero (nx ny : ℕ) (c : NPConsts) (sp : ℕ × ℕ) (s : NPState)
    (hex : ∀ i j, s.ex i j = 0) (hey : ∀ i j, s.ey i j = 0)
    (hhz : ∀ i j, s.hz i j = 0) :
    (∀ i j, (npml_step nx ny c sp 0 s).ex i j = 0) ∧
    (∀ i j, (npml_step nx ny c sp 0 s).ey i j = 0) ∧
    (∀ i j, (npml_step nx ny c sp 0 s).hz i j = 0) := by
  refine ⟨fun i j => ?_, fun i j => ?_, fun i j => ?_⟩ <;>
    simp [npml_step, write2, hex, hey, hhz]

theorem bpml_step_zero (nx ny : ℕ) (c : BPConsts) (sp : ℕ × ℕ) (s : BPState)
    (hex : ∀ i j, s.ex i j = 0) (hey : ∀ i j, s.ey i j = 0)
    (hhzx : ∀ i j, s.hzx i j = 0) (hhzy : ∀ i j, s.hzy i j = 0) :
    (∀ i j, (bpml_step nx ny c sp 0 s).ex i j = 0) ∧
    (∀ i j, (bpml_step nx ny c sp 0 s).ey i j = 0) ∧
    (∀ i j, (bpml_step nx ny c sp 0 s).hz i j = 0) ∧
    (∀ i j, (bpml_step nx ny c sp 0 s).hzx i j = 0) ∧
    (∀ i j, (bpml_step nx ny c sp 0 s).hzy i j = 0) := by
  refine ⟨fun i j => ?_, fun i j => ?_, fun i j => ?_, fun i j => ?_,
    fun i j => ?_⟩ <;>
    simp [bpml_step, write2, hex, hey, hhzx, hhzy]

theorem cpml_step_zero (nx ny : ℕ) (c : CPConsts) (a : CPAux) (sp : ℕ × ℕ)
    (s : CPState)
    (hex : ∀ i j, s.ex i j = 0) (hey : ∀ i j, s.ey i j = 0)
    (hhz : ∀ i j, s.hz i j = 0)
    (hpex : ∀ i j, s.pex i j = 0) (hpey : ∀ i j, s.pey i j = 0)
    (hphx : ∀ i j, s.phx i j = 0) (hphy : ∀ i j, s.phy i j = 0) :
    (∀ i j, (cpml_step nx ny c a sp 0 s).ex i j = 0) ∧
    (∀ i j, (cpml_step nx ny c a sp 0 s).ey i j = 0) ∧
    (∀ i j, (cpml_step nx ny c a sp 0 s).hz i j = 0) ∧
    (∀ i j, (cpml_step nx ny c a sp 0 s).pex i j = 0) ∧
    (∀ i j, (cpml_step nx ny c a sp 0 s).pey i j = 0) ∧
    (∀ i j, (cpml_step nx ny c a sp 0 s).phx i j = 0) ∧
    (∀ i j, (cpml_step nx ny c a sp 0 s).phy i j = 0) := by
  refine ⟨fun i j => ?_, fun i j => ?_, fun i j => ?_, fun i j => ?_,
    fun i j => ?_, fun i j => ?_, fun i j => ?_⟩ <;>
    simp [cpml_step, write2, hex, hey, hhz, hpex, hpey, hphx, hphy]

theorem npml_iter_zero (nx ny : ℕ) (c : NPConsts) (sp : ℕ × ℕ)
    (source : ℕ → ℝ) (hs : ∀ t, source t = 0) (t : ℕ) :
    (∀ i j, (npml_iter nx ny c sp source npml_init t).ex i j = 0) ∧
    (∀ i j, (npml_iter nx ny c sp source npml_init t).ey i j = 0) ∧
    (∀ i j, (npml_iter nx ny c sp source npml_init t).hz i j = 0) := by
  induction t with
  | zero => exact ⟨fun _ _ => rfl, fun _ _ => rfl, fun _ _ => rfl⟩
  | succ t ih =>
    obtain ⟨h1, h2, h3⟩ := ih
    have e : npml_iter nx ny c sp source npml_init (t+1)
        = npml_step nx ny c sp 0 (npml_iter nx ny c sp source npml_init t) := by
      rw [npml_iter, hs t]
    rw [e]
    exact npml_step_zero nx ny c sp _ h1 h2 h3

theorem bpml_iter_zero (nx ny : ℕ) (c : BPConsts) (sp : ℕ × ℕ)
    (source : ℕ → ℝ) (hs : ∀ t, source t = 0) (t : ℕ) :
    (∀ i j, (bpml_iter nx ny c sp source bpml_init t).ex i j = 0) ∧
    (∀ i j, (bpml_iter nx ny c sp source bpml_init t).ey i j = 0) ∧
    (∀ i j, (bpml_iter nx ny c sp source bpml_init t).hz i j = 0) ∧
    (∀ i j, (bpml_iter nx ny c sp source bpml_init t).hzx i j = 0) ∧
    (∀ i j, (bpml_iter nx ny c sp source bpml_init t).hzy i j = 0) := by
  induction t with
  | zero =>
    exact ⟨fun _ _ => rfl, fun _ _ => rfl, fun _ _ => rfl, fun _ _ => rfl,
      fun _ _ => rfl⟩
  | succ t ih =>
    obtain ⟨h1, h2, h3, h4, h5⟩ := ih
    have e : bpml_iter nx ny c sp source bpml_init (t+1)
        = bpml_step nx ny c sp 0 (bpml_iter nx ny c sp source bpml_init t) := by
      rw [bpml_iter, hs t]
    rw [e]
    exact bpml_step_zero nx ny c sp _ h1 h2 h4 h5

theorem cpml_iter_zero (nx ny : ℕ) (c : CPConsts) (a : CPAux) (sp : ℕ × ℕ)
    (source : ℕ → ℝ) (hs : ∀ t, source t = 0) (t : ℕ) :
    (∀ i j, (cpml_iter nx ny c a sp source cpml_init t).ex i j = 0) ∧
    (∀ i j, (cpml_iter nx ny c a sp source cpml_init t).ey i j = 0) ∧
    (∀ i j, (cpml_iter nx ny c a sp source cpml_init t).hz i j = 0) ∧
    (∀ i j, (cpml_iter nx ny c a sp source cpml_init t).pex i j = 0) ∧
    (∀ i j, (cpml_iter nx ny c a sp source cpml_init t).pey i j = 0) ∧
    (∀ i j, (cpml_iter nx ny c a sp source cpml_init t).phx i j = 0) ∧
    (∀ i j, (cpml_iter nx ny c a sp source cpml_init t).phy i j = 0) := by
  induction t with
  | zero =>
    exact ⟨fun _ _ => rfl, fun _ _ => rfl, fun _ _ => rfl, fun _ _ => rfl,
      fun _ _ => rfl, fun _ _ => rfl, fun _ _ => rfl⟩
  | succ t ih =>
    obtain ⟨h1, h2, h3, h4, h5, h6, h7⟩ := ih
    have e : cpml_iter nx ny c a sp source cpml_init (t+1)
        = cpml_step nx ny c a sp 0 (cpml_iter nx ny c a sp source cpml_init t) := by
      rw [cpml_iter, hs t]
    rw [e]
    exact cpml_step_zero nx ny c a sp _ h1 h2 h3 h4 h5 h6 h7

/-- Claim C3: zero fixed point.  For every engine variant, if all
conductivity arrays are zero everywhere (the PML/CPML coefficient bundles are
computed from zero sigma arrays), the initial Ex, Ey, Hz and all
auxiliary/psi fields are zero, and the source callback returns 0 at every
timestep, then every cell of the returned history is exactly 0 at every
timestep. -/
theorem claim_C3_zero_fixed_point
    (nx ny nt : ℕ) (dx dy dt : ℝ) (eps mu : Grid) (sp : ℕ × ℕ)
    (source : ℕ → ℝ) (hs : ∀ t, source t = 0) (i j t : ℕ) :
    npml_evolution nx ny nt (npml_calculate_constants dx dy dt) sp source
      npml_init (fun _ _ _ => 0) i j t = 0 ∧
    bpml_evolution nx ny nt
      (bpml_calculate_constants eps mu zeroGrid zeroGrid zeroGrid zeroGrid dx dy dt)
      sp source bpml_init (fun _ _ _ => 0) i j t = 0 ∧
    cpml_evolution nx ny nt (cpml_calculate_constants eps mu dx dy dt)
      (cpml_constants nx ny zeroGrid zeroGrid zeroGrid zeroGrid dx dy dt)
      sp source cpml_init (fun _ _ _ => 0) i j t = 0 := by
  refine ⟨?_, ?_, ?_⟩
  · show (if t < nt then (npml_iter nx ny _ sp source npml_init (t+1)).hz i j
        else (0 : ℝ)) = 0
    split
    · exact (npml_iter_zero nx ny _ sp source hs (t+1)).2.2 i j
    · rfl
  · show (if t < nt then (bpml_iter nx ny _ sp source bpml_init (t+1)).hz i j
        else (0 : ℝ)) = 0
    split
    · exact (bpml_iter_zero nx ny _ sp source hs (t+1)).2.2.1 i j
    · rfl
  · show (if t < nt then (cpml_iter nx ny _ _ sp source cpml_init (t+1)).hz i j
        else (0 : ℝ)) = 0
    split
    · exact (cpml_iter_zero nx ny _ _ sp source hs (t+1)).2.2.1 i j
    · rfl

/-- Witness for C3 at a concrete configuration (12×12 grid, 3 steps,
unit spacings, vacuum environment, the constant-zero source). -/
theorem claim_C3_zero_fixed_point_witness :
    npml_evolution 12 12 3 (npml_calculate_constants 1 1 1) (5, 5)
      (fun _ => 0) npml_init (fun _ _ _ => 0) 4 7 2 = 0 ∧
    bpml_evolution 12 12 3
      (bpml_calculate_constants onesGrid onesGrid zeroGrid zeroGrid zeroGrid
        zeroGrid 1 1 1)
      (5, 5) (fun _ => 0) bpml_init (fun _ _ _ => 0) 4 7 2 = 0 ∧
    cpml_evolution 12 12 3 (cpml_calculate_constants onesGrid onesGrid 1 1 1)
      (cpml_constants 12 12 zeroGrid zeroGrid zeroGrid zeroGrid 1 1 1)
      (5, 5) (fun _ => 0) cpml_init (fun _ _ _ => 0) 4 7 2 = 0 :=
  claim_C3_zero_fixed_point 12 12 3 1 1 1 onesGrid onesGrid (5, 5)
    (fun _ => 0) (fun _ => rfl) 4 7 2

/-! ## Claim C4 -/

/-- Claim C4: concrete scenario.  With nx = ny = 20, nt = 5, dx = dy = 0.05,
dt = 1e-10, the vacuum constants, source point (10, 10) and the impulse
source `source t = 1` if `t = 0` else `0`, the NoPML engine returns a history
with `history[10, 10, 0] = 1` and `history[x, y, 0] = 0` for every
`(x, y) ≠ (10, 10)` inside the grid. -/
theorem claim_C4_concrete_scenario :
    call_npml 20 20 5 0.05 0.05 1e-10 (10, 10)
      (fun t => if t = 0 then 1 else 0) 10 10 0 = 1 ∧
    (∀ x y : ℕ, x < 20 → y < 20 → (x, y) ≠ (10, 10) →
      call_npml 20 20 5 0.05 0.05 1e-10 (10, 10)
        (fun t => if t = 0 then 1 else 0) x y 0 = 0) := by
  constructor
  · unfold call_npml npml_evolution
    rw [if_pos (by norm_num : (0 : ℕ) < 5)]
    exact (npml_step_hz_src 20 20 (npml_calculate_constants 0.05 0.05 1e-10)
      (10, 10) _ _).trans (by norm_num)
  · intro x y hx hy hne
    have hne' : ¬(x = (10, 10).1 ∧ y = (10, 10).2) := by
      rintro ⟨h1, h2⟩
      exact hne (by simp [h1, h2])
    unfold call_npml npml_evolution
    rw [if_pos (by norm_num : (0 : ℕ) < 5)]
    simp only [npml_iter, npml_step]
    rw [write2_other _ _ _ _ _ hne']
    simp [npml_init, zeroGrid]

/-- Witness for C4: the source cell reads 1 and the off-source cell (3, 4)
reads 0 at timestep 0. -/
theorem claim_C4_concrete_scenario_witness :
    call_npml 20 20 5 0.05 0.05 1e-10 (10, 10)
      (fun t => if t = 0 then 1 else 0) 10 10 0 = 1 ∧
    call_npml 20 20 5 0.05 0.05 1e-10 (10, 10)
      (fun t => if t = 0 then 1 else 0) 3 4 0 = 0 :=
  ⟨claim_C4_concrete_scenario.1,
    claim_C4_concrete_scenario.2 3 4 (by decide) (by decide) (by decide)⟩

/-! ## Claim C5 -/

/-- Claim C5: Berenger split-field source asymmetry.  The hard-source write
at step `t` changes only the combined Hz array at the source cell: the split
components `hzx`, `hzy` keep their pre-source values (computed from the state
at the start of the step, independently of the written value), every other
cell of Hz is unchanged by the write, and `ex`/`ey` are untouched at the
moment of the write.  Consequently, at the start of step `t+1` the sum
`hzx + hzy` at the source cell differs from the recorded value
`history[sp, t]` whenever `source t` differed from the pre-source sum. -/
theorem claim_C5_split_field_source_asymmetry
    (nx ny nt : ℕ) (c : BPConsts) (sp : ℕ × ℕ) (source : ℕ → ℝ)
    (s0 : BPState) (h0 : ℕ → ℕ → ℕ → ℝ) (t : ℕ) (ht : t < nt) :
    (∀ i j, (bpml_iter nx ny c sp source s0 (t+1)).hzx i j
        = c.hzx1 i j * (bpml_iter nx ny c sp source s0 t).hzx i j
          - c.hzx2 i j * ((bpml_iter nx ny c sp source s0 t).ey (i+1) j
            - (bpml_iter nx ny c sp source s0 t).ey i j)) ∧
    (∀ i j, (bpml_iter nx ny c sp source s0 (t+1)).hzy i j
        = c.hzy1 i j * (bpml_iter nx ny c sp source s0 t).hzy i j
          + c.hzy2 i j * ((bpml_iter nx ny c sp source s0 t).ex i (j+1)
            - (bpml_iter nx ny c sp source s0 t).ex i j)) ∧
    (∀ (v w : ℝ) (s : BPState),
        (bpml_step nx ny c sp v s).hzx = (bpml_step nx ny c sp w s).hzx ∧
        (bpml_step nx ny c sp v s).hzy = (bpml_step nx ny c sp w s).hzy ∧
        ∀ i j, ¬(i = sp.1 ∧ j = sp.2) →
          (bpml_step nx ny c sp v s).hz i j
            = (bpml_step nx ny c sp w s).hz i j) ∧
    bpml_evolution nx ny nt c sp source s0 h0 sp.1 sp.2 t = source t ∧
    (∀ i j, ¬(i = sp.1 ∧ j = sp.2) →
        bpml_evolution nx ny nt c sp source s0 h0 i j t
          = (bpml_iter nx ny c sp source s0 (t+1)).hzx i j
            + (bpml_iter nx ny c sp source s0 (t+1)).hzy i j) ∧
    (source t ≠ (bpml_iter nx ny c sp source s0 (t+1)).hzx sp.1 sp.2
        + (bpml_iter nx ny c sp source s0 (t+1)).hzy sp.1 sp.2 →
      (bpml_iter nx ny c sp source s0 (t+1)).hzx sp.1 sp.2
        + (bpml_iter nx ny c sp source s0 (t+1)).hzy sp.1 sp.2
        ≠ bpml_evolution nx ny nt c sp source s0 h0 sp.1 sp.2 t) := by
  have hrec : bpml_evolution nx ny nt c sp source s0 h0 sp.1 sp.2 t
      = source t := by
    show (if t < nt then (bpml_iter nx ny c sp source s0 (t+1)).hz sp.1 sp.2
        else h0 sp.1 sp.2 t) = source t
    rw [if_pos ht]
    exact bpml_step_hz_src nx ny c sp (source t) _
  refine ⟨fun i j => rfl, fun i j => rfl, fun v w s => ⟨rfl, rfl, ?_⟩,
    hrec, ?_, ?_⟩
  · intro i j hij
    simp only [bpml_step]
    rw [write2_other _ _ _ _ _ hij, write2_other _ _ _ _ _ hij]
  · intro i j hij
    show (if t < nt then (bpml_iter nx ny c sp source s0 (t+1)).hz i j
        else h0 i j t) = _
    rw [if_pos ht]
    simp only [bpml_iter, bpml_step]
    rw [write2_other _ _ _ _ _ hij]
  · intro hne heq
    exact hne (heq.trans hrec).symm

/-- A Berenger coefficient bundle with every per-cell coefficient equal to 1,
used to witness C5 on a concrete run. -/
def allOnesBP : BPConsts :=
  ⟨onesGrid, onesGrid, onesGrid, onesGrid, onesGrid, onesGrid, onesGrid,
    onesGrid⟩

/-- Witness for C5: on a 1×1 grid starting from the all-zero state with unit
source, the pre-source split sum at the source cell is 0 while the recorded
(overwritten) value is 1, so the split sum differs from the recorded value at
the start of the next step. -/
theorem claim_C5_split_field_source_asymmetry_witness :
    (bpml_iter 1 1 allOnesBP (0, 0) (fun _ => 1) bpml_init 1).hzx 0 0
      + (bpml_iter 1 1 allOnesBP (0, 0) (fun _ => 1) bpml_init 1).hzy 0 0
      ≠ bpml_evolution 1 1 1 allOnesBP (0, 0) (fun _ => 1) bpml_init
          (fun _ _ _ => 0) 0 0 0 := by
  have hsum : (bpml_iter 1 1 allOnesBP (0, 0) (fun _ => 1) bpml_init 1).hzx 0 0
      + (bpml_iter 1 1 allOnesBP (0, 0) (fun _ => 1) bpml_init 1).hzy 0 0
      = 0 := by
    simp [bpml_iter, bpml_step, bpml_init, allOnesBP, zeroGrid, onesGrid]
  exact (claim_C5_split_field_source_asymmetry 1 1 1 allOnesBP (0, 0)
    (fun _ => 1) bpml_init (fun _ _ _ => 0) 0 (by decide)).2.2.2.2.2
    (by rw [hsum]; norm_num)

/-! ## Claim C6 -/

/-- Counterexample to C6 as stated: the source point (-1, 0) lies outside
[0, nx) × [0, ny) on a 2×2 grid, yet `call_npml` neither detects this at
setup time nor aborts — numpy wraps the negative coordinate to row 1 and the
run completes, returning a full history whose cell (1, 0) records the source
value. -/
theorem claim_C6_counterexample :
    (call_npml_ix 2 2 1 1 1 1 (-1, 0) (fun _ => 3)).isSome = true ∧
    call_npml_ix 2 2 1 1 1 1 (-1, 0) (fun _ => 3)
      = some (call_npml 2 2 1 1 1 1 (1, 0) (fun _ => 3)) ∧
    call_npml 2 2 1 1 1 1 (1, 0) (fun _ => 3) 1 0 0 = 3 := by
  refine ⟨rfl, rfl, ?_⟩
  unfold call_npml npml_evolution
  rw [if_pos (by norm_num : (0 : ℕ) < 1)]
  exact npml_step_hz_src 2 2 (npml_calculate_constants 1 1 1) (1, 0) _ _

/-- Claim C6, amended: the source point is not validated at setup time —
neither by any of the three evolution engines nor by the NoPML caller
`call_npml` (modelled end-to-end).  In each engine the only indexing of the
source point is the `hz[sourcepoint] = source(t)` write inside the time
loop, so an unresolvable coordinate (below `-n` or at/above `n` on an axis
of length `n`) raises an IndexError only at the first iteration — during
stepping, not before it — and with `nt = 0` the untouched history buffer is
returned whatever the source point is; a negative coordinate in `[-n, 0)`
is not rejected but silently wrapped to `n + coordinate`, and the run
completes with a full history.  (The Berenger and CPML callers add no
source-point check either, but run unrelated hard-coded environment setup
before stepping, which is outside this claim.) -/
theorem claim_C6_amended_no_setup_validation
    (nx ny nt : ℕ) (p : ℤ × ℤ) (source : ℕ → ℝ) :
    (-(nx : ℤ) ≤ p.1 → p.1 < 0 →
      numpy_resolve nx p.1 = some (p.1 + nx).toNat) ∧
    (∀ dx dy dt : ℝ,
      (nt = 0 →
        call_npml_ix nx ny nt dx dy dt p source = some (fun _ _ _ => 0)) ∧
      (1 ≤ nt → numpy_resolve nx p.1 = none ∨ numpy_resolve ny p.2 = none →
        call_npml_ix nx ny nt dx dy dt p source = none) ∧
      (∀ i j : ℕ, numpy_resolve nx p.1 = some i →
        numpy_resolve ny p.2 = some j →
        call_npml_ix nx ny nt dx dy dt p source
          = some (call_npml nx ny nt dx dy dt (i, j) source))) ∧
    (∀ (c : NPConsts) (s0 : NPState) (h0 : ℕ → ℕ → ℕ → ℝ),
      (nt = 0 → npml_evolution_ix nx ny nt c p source s0 h0 = some h0) ∧
      (1 ≤ nt → numpy_resolve nx p.1 = none ∨ numpy_resolve ny p.2 = none →
        npml_evolution_ix nx ny nt c p source s0 h0 = none) ∧
      (∀ i j : ℕ, numpy_resolve nx p.1 = some i →
        numpy_resolve ny p.2 = some j →
        npml_evolution_ix nx ny nt c p source s0 h0
          = some (npml_evolution nx ny nt c (i, j) source s0 h0))) ∧
    (∀ (c : BPConsts) (s0 : BPState) (h0 : ℕ → ℕ → ℕ → ℝ),
      (nt = 0 → bpml_evolution_ix nx ny nt c p source s0 h0 = some h0) ∧
      (1 ≤ nt → numpy_resolve nx p.1 = none ∨ numpy_resolve ny p.2 = none →
        bpml_evolution_ix nx ny nt c p source s0 h0 = none) ∧
      (∀ i j : ℕ, numpy_resolve nx p.1 = some i →
        numpy_resolve ny p.2 = some j →
        bpml_evolution_ix nx ny nt c p source s0 h0
          = some (bpml_evolution nx ny nt c (i, j) source s0 h0))) ∧
    (∀ (c : CPConsts) (a : CPAux) (s0 : CPState) (h0 : ℕ → ℕ → ℕ → ℝ),
      (nt = 0 → cpml_evolution_ix nx ny nt c a p source s0 h0 = some h0) ∧
      (1 ≤ nt → numpy_resolve nx p.1 = none ∨ numpy_resolve ny p.2 = none →
        cpml_evolution_ix nx ny nt c a p source s0 h0 = none) ∧
      (∀ i j : ℕ, numpy_resolve nx p.1 = some i →
        numpy_resolve ny p.2 = some j →
        cpml_evolution_ix nx ny nt c a p source s0 h0
          = some (cpml_evolution nx ny nt c a (i, j) source s0 h0))) := by
  refine ⟨?_, fun dx dy dt => ⟨?_, ?_, ?_⟩, fun c s0 h0 => ⟨?_, ?_, ?_⟩,
    fun c s0 h0 => ⟨?_, ?_, ?_⟩, fun c a s0 h0 => ⟨?_, ?_, ?_⟩⟩
  · intro h1 h2
    unfold numpy_resolve
    rw [if_neg (by omega), if_pos ⟨h1, h2⟩]
  · intro h
    subst h
    unfold call_npml_ix
    rw [if_pos rfl]
  · intro hnt hres
    unfold call_npml_ix
    rw [if_neg (by omega)]
    rcases hres with h | h
    · rw [h]
    · cases hfst : numpy_resolve nx p.1 with
      | none => rfl
      | some i => rw [h]
  · intro i j hi hj
    unfold call_npml_ix
    by_cases hnt : nt = 0
    · subst hnt
      rw [if_pos rfl]
      refine congrArg some ?_
      funext a b u
      simp [call_npml, npml_evolution, Nat.not_lt_zero u]
    · rw [if_neg hnt, hi, hj]
  · intro h
    subst h
    unfold npml_evolution_ix
    rw [if_pos rfl]
  · intro hnt hres
    unfold npml_evolution_ix
    rw [if_neg (by omega)]
    rcases hres with h | h
    · rw [h]
    · cases hfst : numpy_resolve nx p.1 with
      | none => rfl
      | some i => rw [h]
  · intro i j hi hj
    unfold npml_evolution_ix
    by_cases hnt : nt = 0
    · subst hnt
      rw [if_pos rfl]
      refine congrArg some ?_
      funext a b u
      simp [npml_evolution, Nat.not_lt_zero u]
    · rw [if_neg hnt, hi, hj]
  · intro h
    subst h
    unfold bpml_evolution_ix
    rw [if_pos rfl]
  · intro hnt hres
    unfold bpml_evolution_ix
    rw [if_neg (by omega)]
    rcases hres with h | h
    · rw [h]
    · cases hfst : numpy_resolve nx p.1 with
      | none => rfl
      | some i => rw [h]
  · intro i j hi hj
    unfold bpml_evolution_ix
    by_cases hnt : nt = 0
    · subst hnt
      rw [if_pos rfl]
      refine congrArg some ?_
      funext a b u
      simp [bpml_evolution, Nat.not_lt_zero u]
    · rw [if_neg hnt, hi, hj]
  · intro h
    subst h
    unfold cpml_evolution_ix
    rw [if_pos rfl]
  · intro hnt hres
    unfold cpml_evolution_ix
    rw [if_neg (by omega)]
    rcases hres with h | h
    · rw [h]
    · cases hfst : numpy_resolve nx p.1 with
      | none => rfl
      | some i => rw [h]
  · intro i j hi hj
    unfold cpml_evolution_ix
    by_cases hnt : nt = 0
    · subst hnt
      rw [if_pos rfl]
      refine congrArg some ?_
      funext a b u
      simp [cpml_evolution, Nat.not_lt_zero u]
    · rw [if_neg hnt, hi, hj]

/-- Witness for C6: a too-large coordinate aborts (only) a stepping run in
each engine, an `nt = 0` run returns the untouched buffer for any source
point, and a negative in-range coordinate resolves by wrap-around and the
run completes. -/
theorem claim_C6_amended_witness :
    call_npml_ix 2 2 1 1 1 1 (5, 0) (fun _ => 3) = none ∧
    call_npml_ix 2 2 0 1 1 1 (5, 0) (fun _ => 3) = some (fun _ _ _ => 0) ∧
    numpy_resolve 2 (-1) = some 1 ∧
    npml_evolution_ix 2 2 0 ⟨1, 1, 1, 1⟩ (5, 0) (fun _ => 3) npml_init
      (fun _ _ _ => 7) = some (fun _ _ _ => 7) ∧
    bpml_evolution_ix 2 2 1
      ⟨onesGrid, onesGrid, onesGrid, onesGrid, onesGrid, onesGrid, onesGrid,
        onesGrid⟩
      (5, 0) (fun _ => 3) bpml_init (fun _ _ _ => 0) = none ∧
    cpml_evolution_ix 2 2 1
      ⟨onesGrid, onesGrid, onesGrid, onesGrid, onesGrid, onesGrid, onesGrid⟩
      ⟨onesGrid, onesGrid, onesGrid, onesGrid, onesGrid, onesGrid, onesGrid,
        onesGrid⟩
      (-1, 0) (fun _ => 3) cpml_init (fun _ _ _ => 0)
      = some (cpml_evolution 2 2 1
          ⟨onesGrid, onesGrid, onesGrid, onesGrid, onesGrid, onesGrid,
            onesGrid⟩
          ⟨onesGrid, onesGrid, onesGrid, onesGrid, onesGrid, onesGrid,
            onesGrid, onesGrid⟩
          (1, 0) (fun _ => 3) cpml_init (fun _ _ _ => 0)) := by
  refine ⟨?_, ?_, ?_, ?_, ?_, ?_⟩
  · exact ((claim_C6_amended_no_setup_validation 2 2 1 (5, 0)
      (fun _ => 3)).2.1 1 1 1).2.1 (by decide) (Or.inl (by decide))
  · exact ((claim_C6_amended_no_setup_validation 2 2 0 (5, 0)
      (fun _ => 3)).2.1 1 1 1).1 rfl
  · have h := (claim_C6_amended_no_setup_validation 2 2 1 (-1, 0)
      (fun _ => 3)).1 (by decide) (by decide)
    exact h.trans (by decide)
  · exact ((claim_C6_amended_no_setup_validation 2 2 0 (5, 0)
      (fun _ => 3)).2.2.1 ⟨1, 1, 1, 1⟩ npml_init (fun _ _ _ => 7)).1 rfl
  · exact ((claim_C6_amended_no_setup_validation 2 2 1 (5, 0)
      (fun _ => 3)).2.2.2.1
      ⟨onesGrid, onesGrid, onesGrid, onesGrid, onesGrid, onesGrid, onesGrid,
        onesGrid⟩
      bpml_init (fun _ _ _ => 0)).2.1 (by decide) (Or.inl (by decide))
  · exact ((claim_C6_amended_no_setup_validation 2 2 1 (-1, 0)
      (fun _ => 3)).2.2.2.2
      ⟨onesGrid, onesGrid, onesGrid, onesGrid, onesGrid, onesGrid, onesGrid⟩
      ⟨onesGrid, onesGrid, onesGrid, onesGrid, onesGrid, onesGrid, onesGrid,
        onesGrid⟩
      cpml_init (fun _ _ _ => 0)).2.2 1 0 (by decide) (by decide)

/-! ## Claim C7 -/

/-- Counterexample to C7 as stated: `make_fields 0 5` has `nx ≤ 0`, yet the
allocation succeeds (numpy accepts zero-sized dimensions), so the failure
condition is not `nx ≤ 0 ∨ ny ≤ 0`. -/
theorem claim_C7_counterexample :
    (make_fields 0 5).isSome = true ∧ (0 : ℤ) ≤ 0 :=
  ⟨rfl, le_refl 0⟩

/-- Claim C7, amended: `make_fields (nx, ny)` returns three zero-initialized
buffers of shapes `(nx, ny+1)`, `(nx+1, ny)`, `(nx, ny)`, and fails exactly
when `nx < 0` or `ny < 0` (numpy's `ValueError` for negative dimensions); it
has no other failure mode.  Zero-sized dimensions are accepted and yield
empty buffers. -/
theorem claim_C7_amended_allocation (nx ny : ℤ) :
    ((make_fields nx ny).isSome ↔ 0 ≤ nx ∧ 0 ≤ ny) ∧
    (∀ ex ey hz : NPArr, make_fields nx ny = some (ex, ey, hz) →
      ex.shape = (nx, ny + 1) ∧ ey.shape = (nx + 1, ny) ∧
      hz.shape = (nx, ny) ∧
      (∀ i j, ex.val i j = 0) ∧ (∀ i j, ey.val i j = 0) ∧
      (∀ i j, hz.val i j = 0)) := by
  constructor
  · unfold make_fields np_zeros2
    split_ifs with h1 h2 h3 <;> simp <;> omega
  · intro ex ey hz hfe
    unfold make_fields np_zeros2 at hfe
    split_ifs at hfe with h1 h2 h3 <;> simp at hfe
    obtain ⟨hA, hB, hC⟩ := hfe
    subst hA
    subst hB
    subst hC
    exact ⟨rfl, rfl, rfl, fun i j => rfl, fun i j => rfl, fun i j => rfl⟩

/-- Witness for C7: a positive configuration allocates (with the documented
shapes), a negative dimension is rejected. -/
theorem claim_C7_amended_allocation_witness :
    (make_fields 3 4).isSome = true ∧ (make_fields (-2) 4).isSome = false ∧
    (⟨((3 : ℤ), (5 : ℤ)), zeroGrid⟩ : NPArr).shape = (3, 4 + 1) := by
  refine ⟨(claim_C7_amended_allocation 3 4).1.mpr ⟨by norm_num, by norm_num⟩,
    ?_, ?_⟩
  · cases hb : (make_fields (-2) 4).isSome
    · rfl
    · exact absurd ((claim_C7_amended_allocation (-2) 4).1.mp hb)
        (by norm_num)
  · exact ((claim_C7_amended_allocation 3 4).2 ⟨(3, 5), zeroGrid⟩
      ⟨(4, 4), zeroGrid⟩ ⟨(3, 4), zeroGrid⟩ rfl).1

/-! ## Claim C2 -/

/-- An Ey field with a single unit spike at cell (1, 0), so that the
x-difference `ey[1:, :] - ey[:-1, :]` equals 1 at cell (0, 0) and the Hz
update there isolates the coefficient applied to the Ey x-differences. -/
def eySpike : Grid := fun i j => if i = 1 ∧ j = 0 then 1 else 0

/-- A CPML run state whose only nonzero entry is the Ey spike. -/
def spikeCPState : CPState where
  ex := zeroGrid
  ey := eySpike
  hz := zeroGrid
  pex := zeroGrid
  pey := zeroGrid
  phx := zeroGrid
  phy := zeroGrid
  hzAlias := true
  hzCaller := zeroGrid

/-- Claim C2 (refuted by the code): `cpml.evolution` unpacks the constants
list as `cex, cey, chy, chx, ...`, i.e. NOT in the positional order
`[cex, cey, chx, chy, ...]` that `calculate_constants` produces.  With
`eps = mu = 1`, `dx = 1`, `dy = 2`, `dt = 1`, zero sigmas, and an Ey field
whose x-difference is 1 at cell (0, 0) (all else zero), the Hz update at
(0, 0) yields `-chx = -dt/(ky*dy*mu) = -1/2` — the produced dy-based
coefficient — and not `-chy = -dt/(kx*dx*mu) = -1`, the dx-based coefficient
that the governing update equations (and the NoPML engine, where
`chzx = dt/(mu*dx)` multiplies the Ey differences) prescribe. -/
theorem claim_C2_coefficient_order_bug :
    (cpml_calculate_constants onesGrid onesGrid 1 2 1).chx 0 0 = 1 / 2 ∧
    (cpml_calculate_constants onesGrid onesGrid 1 2 1).chy 0 0 = 1 ∧
    cpml_evolution 12 12 1 (cpml_calculate_constants onesGrid onesGrid 1 2 1)
      (cpml_constants 12 12 zeroGrid zeroGrid zeroGrid zeroGrid 1 2 1)
      (5, 5) (fun _ => 0) spikeCPState (fun _ _ _ => 0) 0 0 0
      = -((cpml_calculate_constants onesGrid onesGrid 1 2 1).chx 0 0) ∧
    cpml_evolution 12 12 1 (cpml_calculate_constants onesGrid onesGrid 1 2 1)
      (cpml_constants 12 12 zeroGrid zeroGrid zeroGrid zeroGrid 1 2 1)
      (5, 5) (fun _ => 0) spikeCPState (fun _ _ _ => 0) 0 0 0
      ≠ -((cpml_calculate_constants onesGrid onesGrid 1 2 1).chy 0 0) := by
  have hx : (cpml_calculate_constants onesGrid onesGrid 1 2 1).chx 0 0
      = 1 / 2 := by
    simp [cpml_calculate_constants, onesGrid]
  have hy : (cpml_calculate_constants onesGrid onesGrid 1 2 1).chy 0 0
      = 1 := by
    simp [cpml_calculate_constants, onesGrid]
  have hev : cpml_evolution 12 12 1
      (cpml_calculate_constants onesGrid onesGrid 1 2 1)
      (cpml_constants 12 12 zeroGrid zeroGrid zeroGrid zeroGrid 1 2 1)
      (5, 5) (fun _ => 0) spikeCPState (fun _ _ _ => 0) 0 0 0
      = -((cpml_calculate_constants onesGrid onesGrid 1 2 1).chx 0 0) := by
    unfold cpml_evolution
    rw [if_pos (by norm_num : (0 : ℕ) < 1)]
    simp only [cpml_iter, cpml_step]
    rw [write2_other _ _ _ _ _ (by decide)]
    simp [spikeCPState, eySpike, zeroGrid, cpml_constants, Real.exp_zero]
  exact ⟨hx, hy, hev, by rw [hev, hx, hy]; norm_num⟩

/-! ## Claim C9 -/

theorem rowSet_eq (g : Grid) (r : ℕ) (v : ℝ) (i j : ℕ) (h : i = r) :
    rowSet g r v i j = v := by
  simp [rowSet, h]

theorem rowSet_ne (g : Grid) (r : ℕ) (v : ℝ) (i j : ℕ) (h : i ≠ r) :
    rowSet g r v i j = g i j := by
  simp [rowSet, h]

theorem colSet_eq (g : Grid) (cc : ℕ) (v : ℝ) (i j : ℕ) (h : j = cc) :
    colSet g cc v i j = v := by
  simp [colSet, h]

theorem colSet_ne (g : Grid) (cc : ℕ) (v : ℝ) (i j : ℕ) (h : j ≠ cc) :
    colSet g cc v i j = g i j := by
  simp [colSet, h]

/-- After `k > q0` iterations of the layer loop (with non-overlapping layers,
`nx ≥ 2w+1`), the electric-x conductivity rows `q0` and `nx-2-q0` hold the
half-cell layer distance `w + 1 - 0.5 - q0`. -/
theorem pmlLayers_sx_eval (nx ny w : ℕ) (s : SigmaSet) (q0 : ℕ)
    (hq : q0 < w) (hnx : 2 * w + 1 ≤ nx) :
    ∀ k, q0 < k → k ≤ w →
      (∀ j, (pmlLayers nx ny w k s).sx q0 j = (w : ℝ) + 1 - 0.5 - q0) ∧
      (∀ j, (pmlLayers nx ny w k s).sx (nx - 2 - q0) j
          = (w : ℝ) + 1 - 0.5 - q0) := by
  intro k
  induction k with
  | zero => intro h; exact absurd h (Nat.not_lt_zero q0)
  | succ k ih =>
    intro hk hkw
    simp only [pmlLayers, pmlLayerStep]
    by_cases hqk : q0 = k
    · subst hqk
      refine ⟨fun j => ?_, fun j => ?_⟩
      · rw [rowSet_ne _ _ _ _ _ (by omega), rowSet_eq _ _ _ _ _ rfl]
      · rw [rowSet_eq _ _ _ _ _ rfl]
    · obtain ⟨ih1, ih2⟩ := ih (by omega) (by omega)
      refine ⟨fun j => ?_, fun j => ?_⟩
      · rw [rowSet_ne _ _ _ _ _ (by omega), rowSet_ne _ _ _ _ _ hqk]
        exact ih1 j
      · rw [rowSet_ne _ _ _ _ _ (by omega), rowSet_ne _ _ _ _ _ (by omega)]
        exact ih2 j

/-- Columns `q0` and `ny-2-q0` of the electric-y conductivity, analogously. -/
theorem pmlLayers_sy_eval (nx ny w : ℕ) (s : SigmaSet) (q0 : ℕ)
    (hq : q0 < w) (hny : 2 * w + 1 ≤ ny) :
    ∀ k, q0 < k → k ≤ w →
      (∀ i, (pmlLayers nx ny w k s).sy i q0 = (w : ℝ) + 1 - 0.5 - q0) ∧
      (∀ i, (pmlLayers nx ny w k s).sy i (ny - 2 - q0)
          = (w : ℝ) + 1 - 0.5 - q0) := by
  intro k
  induction k with
  | zero => intro h; exact absurd h (Nat.not_lt_zero q0)
  | succ k ih =>
    intro hk hkw
    simp only [pmlLayers, pmlLayerStep]
    by_cases hqk : q0 = k
    · subst hqk
      refine ⟨fun i => ?_, fun i => ?_⟩
      · rw [colSet_ne _ _ _ _ _ (by omega), colSet_eq _ _ _ _ _ rfl]
      · rw [colSet_eq _ _ _ _ _ rfl]
    · obtain ⟨ih1, ih2⟩ := ih (by omega) (by omega)
      refine ⟨fun i => ?_, fun i => ?_⟩
      · rw [colSet_ne _ _ _ _ _ (by omega), colSet_ne _ _ _ _ _ hqk]
        exact ih1 i
      · rw [colSet_ne _ _ _ _ _ (by omega), colSet_ne _ _ _ _ _ (by omega)]
        exact ih2 i

/-- Rows `q0` and `nx-1-q0` of the magnetic-x conductivity hold the
integer-offset layer distance `w + 1 - q0`. -/
theorem pmlLayers_smx_eval (nx ny w : ℕ) (s : SigmaSet) (q0 : ℕ)
    (hq : q0 < w) (hnx : 2 * w + 1 ≤ nx) :
    ∀ k, q0 < k → k ≤ w →
      (∀ j, (pmlLayers nx ny w k s).smx q0 j = (w : ℝ) + 1 - q0) ∧
      (∀ j, (pmlLayers nx ny w k s).smx (nx - 1 - q0) j
          = (w : ℝ) + 1 - q0) := by
  intro k
  induction k with
  | zero => intro h; exact absurd h (Nat.not_lt_zero q0)
  | succ k ih =>
    intro hk hkw
    simp only [pmlLayers, pmlLayerStep]
    by_cases hqk : q0 = k
    · subst hqk
      refine ⟨fun j => ?_, fun j => ?_⟩
      · rw [rowSet_ne _ _ _ _ _ (by omega), rowSet_eq _ _ _ _ _ rfl]
      · rw [rowSet_eq _ _ _ _ _ rfl]
    · obtain ⟨ih1, ih2⟩ := ih (by omega) (by omega)
      refine ⟨fun j => ?_, fun j => ?_⟩
      · rw [rowSet_ne _ _ _ _ _ (by omega), rowSet_ne _ _ _ _ _ hqk]
        exact ih1 j
      · rw [rowSet_ne _ _ _ _ _ (by omega), rowSet_ne _ _ _ _ _ (by omega)]
        exact ih2 j

/-- Columns `q0` and `ny-1-q0` of the magnetic-y conductivity, analogously. -/
theorem pmlLayers_smy_eval (nx ny w : ℕ) (s : SigmaSet) (q0 : ℕ)
    (hq : q0 < w) (hny : 2 * w + 1 ≤ ny) :
    ∀ k, q0 < k → k ≤ w →
      (∀ i, (pmlLayers nx ny w k s).smy i q0 = (w : ℝ) + 1 - q0) ∧
      (∀ i, (pmlLayers nx ny w k s).smy i (ny - 1 - q0)
          = (w : ℝ) + 1 - q0) := by
  intro k
  induction k with
  | zero => intro h; exact absurd h (Nat.not_lt_zero q0)
  | succ k ih =>
    intro hk hkw
    simp only [pmlLayers, pmlLayerStep]
    by_cases hqk : q0 = k
    · subst hqk
      refine ⟨fun i => ?_, fun i => ?_⟩
      · rw [colSet_ne _ _ _ _ _ (by omega), colSet_eq _ _ _ _ _ rfl]
      · rw [colSet_eq _ _ _ _ _ rfl]
    · obtain ⟨ih1, ih2⟩ := ih (by omega) (by omega)
      refine ⟨fun i => ?_, fun i => ?_⟩
      · rw [colSet_ne _ _ _ _ _ (by omega), colSet_ne _ _ _ _ _ hqk]
        exact ih1 i
      · rw [colSet_ne _ _ _ _ _ (by omega), colSet_ne _ _ _ _ _ (by omega)]
        exact ih2 i

theorem sigma_max_pos (w : ℕ) (r0 : ℝ) (m : ℕ) (dx dy : ℝ) (hw : 1 ≤ w)
    (h0 : 0 < r0) (h1 : r0 < 1) (hdx : 0 < dx) (hdy : 0 < dy) :
    0 < sigma_max w r0 m dx dy := by
  unfold sigma_max
  apply div_pos
  · have hlog : 0 < -Real.log r0 := by
      have := Real.log_neg h0 h1
      linarith
    have hm : (0 : ℝ) < (m : ℝ) + 1 := by positivity
    have heps : (0 : ℝ) < eps0 := by norm_num [eps0]
    have hc : (0 : ℝ) < clight := by norm_num [clight]
    exact mul_pos (mul_pos (mul_pos hlog hm) heps) hc
  · have hwpos : (0 : ℝ) < (w : ℝ) := by
      have : (1 : ℝ) ≤ (w : ℝ) := by exact_mod_cast hw
      linarith
    have hsq : (0 : ℝ) < Real.sqrt ((dx ^ 2 + dy ^ 2) / 2) :=
      Real.sqrt_pos.mpr (by positivity)
    positivity

/-- Counterexample to C9 as stated: with w = 1, R0 = 1/2, m = 1,
dx = dy = 1 on a 4×4 grid, the outermost electric layer is assigned
`sigma_max * ((w + 0.5)/w)^m = 1.5 * sigma_max`, strictly exceeding
`sigma_max` — so the assigned conductivities do NOT satisfy `σ ≤ σ_max`. -/
theorem claim_C9_counterexample :
    sigma_max 1 (1/2) 1 1 1 < (pml 4 4 make_sigmas 1 (1/2) 1 1 1).sx 0 0 := by
  have hsm : 0 < sigma_max 1 (1/2) 1 1 1 :=
    sigma_max_pos 1 (1/2) 1 1 1 (le_refl 1) (by norm_num) (by norm_num)
      (by norm_num) (by norm_num)
  have hval : (pml 4 4 make_sigmas 1 (1/2) 1 1 1).sx 0 0
      = sigma_max 1 (1/2) 1 1 1 * (3 / 2) := by
    simp only [pml]
    rw [(pmlLayers_sx_eval 4 4 1 make_sigmas 0 (by norm_num) (by norm_num)
      1 (by norm_num) le_rfl).1 0]
    norm_num
  rw [hval]
  nlinarith [hsm]

/-- Claim C9, amended.  For a PML configuration (w, R0, m) with w ≥ 1,
0 < R0 < 1, m ≥ 1, positive cell sizes and a grid large enough that the
layers do not overlap (nx, ny ≥ 2w+1), the conductivity builder computes
`σ_max = -ln(R0)(m+1)ε₀c/(2wδ)`, `δ = √((dx²+dy²)/2)`, and assigns layer `q`
(counted from the outer edge, `q < w`) the value `σ_max·(d/w)^m` with
normalized distance `d = w + 0.5 - q` for the electric components
(half-cell offset) and `d = w + 1 - q` for the magnetic components (integer
offset), identically on all four edges.  Every assigned value is strictly
positive and increases strictly monotonically toward the outer edge, but is
bounded by `σ_max·((w+1)/w)^m` rather than by `σ_max`: the outermost layers
have `d/w > 1` and exceed `σ_max`. -/
theorem claim_C9_amended_pml_grading
    (nx ny w m : ℕ) (r0 dx dy : ℝ) (s : SigmaSet) (q : ℕ)
    (hw : 1 ≤ w) (hm : 1 ≤ m) (hr0 : 0 < r0) (hr1 : r0 < 1)
    (hdx : 0 < dx) (hdy : 0 < dy)
    (hnx : 2 * w + 1 ≤ nx) (hny : 2 * w + 1 ≤ ny) (hq : q < w) :
    (∀ j, (pml nx ny s w r0 m dx dy).sx q j
        = sigma_max w r0 m dx dy * (((w : ℝ) + 1 - 0.5 - q) / w) ^ m) ∧
    (∀ j, (pml nx ny s w r0 m dx dy).sx (nx - 2 - q) j
        = sigma_max w r0 m dx dy * (((w : ℝ) + 1 - 0.5 - q) / w) ^ m) ∧
    (∀ i, (pml nx ny s w r0 m dx dy).sy i q
        = sigma_max w r0 m dx dy * (((w : ℝ) + 1 - 0.5 - q) / w) ^ m) ∧
    (∀ i, (pml nx ny s w r0 m dx dy).sy i (ny - 2 - q)
        = sigma_max w r0 m dx dy * (((w : ℝ) + 1 - 0.5 - q) / w) ^ m) ∧
    (∀ j, (pml nx ny s w r0 m dx dy).smx q j
        = sigma_max w r0 m dx dy * (((w : ℝ) + 1 - q) / w) ^ m) ∧
    (∀ j, (pml nx ny s w r0 m dx dy).smx (nx - 1 - q) j
        = sigma_max w r0 m dx dy * (((w : ℝ) + 1 - q) / w) ^ m) ∧
    (∀ i, (pml nx ny s w r0 m dx dy).smy i q
        = sigma_max w r0 m dx dy * (((w : ℝ) + 1 - q) / w) ^ m) ∧
    (∀ i, (pml nx ny s w r0 m dx dy).smy i (ny - 1 - q)
        = sigma_max w r0 m dx dy * (((w : ℝ) + 1 - q) / w) ^ m) ∧
    (0 < sigma_max w r0 m dx dy * (((w : ℝ) + 1 - 0.5 - q) / w) ^ m) ∧
    (0 < sigma_max w r0 m dx dy * (((w : ℝ) + 1 - q) / w) ^ m) ∧
    (q + 1 < w →
      sigma_max w r0 m dx dy * (((w : ℝ) + 1 - 0.5 - (q + 1 : ℕ)) / w) ^ m
        < sigma_max w r0 m dx dy * (((w : ℝ) + 1 - 0.5 - q) / w) ^ m) ∧
    (q + 1 < w →
      sigma_max w r0 m dx dy * (((w : ℝ) + 1 - (q + 1 : ℕ)) / w) ^ m
        < sigma_max w r0 m dx dy * (((w : ℝ) + 1 - q) / w) ^ m) ∧
    (sigma_max w r0 m dx dy * (((w : ℝ) + 1 - 0.5 - q) / w) ^ m
        ≤ sigma_max w r0 m dx dy * (((w : ℝ) + 1) / w) ^ m) ∧
    (sigma_max w r0 m dx dy * (((w : ℝ) + 1 - q) / w) ^ m
        ≤ sigma_max w r0 m dx dy * (((w : ℝ) + 1) / w) ^ m) := by
  have hsm := sigma_max_pos w r0 m dx dy hw hr0 hr1 hdx hdy
  have hwR : (0 : ℝ) < (w : ℝ) := by
    have : (1 : ℝ) ≤ (w : ℝ) := by exact_mod_cast hw
    linarith
  have hqR : (q : ℝ) < (w : ℝ) := by exact_mod_cast hq
  have hq0R : (0 : ℝ) ≤ (q : ℝ) := Nat.cast_nonneg q
  have hEpos : (0 : ℝ) < (w : ℝ) + 1 - 0.5 - q := by linarith
  have hMpos : (0 : ℝ) < (w : ℝ) + 1 - q := by linarith
  have hmono : ∀ a b : ℝ, 0 ≤ a → a < b →
      sigma_max w r0 m dx dy * (a / w) ^ m
        < sigma_max w r0 m dx dy * (b / w) ^ m := by
    intro a b ha hab
    have hdivlt : a / w < b / w := by gcongr
    have hdivnn : 0 ≤ a / w := by positivity
    apply mul_lt_mul_of_pos_left _ hsm
    gcongr
  have hbound : ∀ a : ℝ, 0 ≤ a → a ≤ (w : ℝ) + 1 →
      sigma_max w r0 m dx dy * (a / w) ^ m
        ≤ sigma_max w r0 m dx dy * (((w : ℝ) + 1) / w) ^ m := by
    intro a ha hab
    apply mul_le_mul_of_nonneg_left _ hsm.le
    gcongr
  simp only [pml]
  refine ⟨fun j => ?_, fun j => ?_, fun i => ?_, fun i => ?_, fun j => ?_,
    fun j => ?_, fun i => ?_, fun i => ?_, ?_, ?_, ?_, ?_, ?_, ?_⟩
  · rw [(pmlLayers_sx_eval nx ny w s q hq hnx w hq le_rfl).1 j]
  · rw [(pmlLayers_sx_eval nx ny w s q hq hnx w hq le_rfl).2 j]
  · rw [(pmlLayers_sy_eval nx ny w s q hq hny w hq le_rfl).1 i]
  · rw [(pmlLayers_sy_eval nx ny w s q hq hny w hq le_rfl).2 i]
  · rw [(pmlLayers_smx_eval nx ny w s q hq hnx w hq le_rfl).1 j]
  · rw [(pmlLayers_smx_eval nx ny w s q hq hnx w hq le_rfl).2 j]
  · rw [(pmlLayers_smy_eval nx ny w s q hq hny w hq le_rfl).1 i]
  · rw [(pmlLayers_smy_eval nx ny w s q hq hny w hq le_rfl).2 i]
  · exact mul_pos hsm (pow_pos (div_pos hEpos hwR) m)
  · exact mul_pos hsm (pow_pos (div_pos hMpos hwR) m)
  · intro hq1
    have hcast : ((q + 1 : ℕ) : ℝ) = (q : ℝ) + 1 := by push_cast; ring
    rw [hcast]
    exact hmono _ _ (by
      have : ((q : ℝ) + 1) < (w : ℝ) := by exact_mod_cast hq1
      linarith) (by linarith)
  · intro hq1
    have hcast : ((q + 1 : ℕ) : ℝ) = (q : ℝ) + 1 := by push_cast; ring
    rw [hcast]
    exact hmono _ _ (by
      have : ((q : ℝ) + 1) < (w : ℝ) := by exact_mod_cast hq1
      linarith) (by linarith)
  · exact hbound _ hEpos.le (by linarith)
  · exact hbound _ hMpos.le (by linarith)

/-- Witness for C9: the amended grading theorem instantiated at w = 1,
R0 = 1/2, m = 1, dx = dy = 1 on a 4×4 grid, outermost layer. -/
theorem claim_C9_amended_pml_grading_witness :
    (pml 4 4 make_sigmas 1 (1/2) 1 1 1).sx 0 0
      = sigma_max 1 (1/2) 1 1 1 * ((((1 : ℕ) : ℝ) + 1 - 0.5 - (0 : ℕ)) / ((1 : ℕ) : ℝ)) ^ 1 :=
  (claim_C9_amended_pml_grading 4 4 1 1 (1/2) 1 1 make_sigmas 0 le_rfl le_rfl
    (by norm_num) (by norm_num) (by norm_num) (by norm_num) (by norm_num)
    (by norm_num) (by norm_num)).1 0

end FDTD
